import Mathlib

/-!
# Verification of the Telegram-chat-JSON-to-Markdown converter

A shallow embedding of `telegram_to_markdown.py` and proofs about it.

The JSON values the program manipulates are modelled by `JValue`
(numbers restricted to integers, which is all the program's logic ever
inspects).  Python operations that can raise are modelled in the
`Except PyError` monad: dictionary membership/lookup with an unhashable
key raises `TypeError`, attribute access on a value of the wrong type
raises `AttributeError`, `str.join` over non-string pieces and `+`
between mismatched types raise `TypeError`, and comparison between
incomparable types raises `TypeError`.  Total Python expressions are
embedded as total Lean functions.
-/

/-- Exception classes that the embedded code can raise. -/
inductive PyError where
  | typeError
  | attributeError
  | valueError
deriving Repr, DecidableEq

/-- JSON values as produced by `json.load` (numbers modelled as integers). -/
inductive JValue where
  | null
  | bool (b : Bool)
  | int (n : Int)
  | str (s : String)
  | arr (items : List JValue)
  | obj (fields : List (String × JValue))

/-- Boolean test for `Except.ok`. -/
def isOkE {ε α : Type} : Except ε α → Bool
  | .ok _ => true
  | .error _ => false

/-- Lookup of a string key in a JSON object (Python `dict` lookup;
JSON objects have unique keys). -/
def objGet (fields : List (String × JValue)) (key : String) : Option JValue :=
  match fields with
  | [] => none
  | (k, v) :: rest => if k = key then some v else objGet rest key

/-- Python truthiness of a value (`bool(v)`). -/
def truthy : JValue → Bool
  | .null => false
  | .bool b => b
  | .int n => n != 0
  | .str s => s != ""
  | .arr items => !items.isEmpty
  | .obj fields => !fields.isEmpty

/-- Whether a value is hashable in Python (usable as a `dict` key /
`set` element): scalars are, lists and dicts are not. -/
def hashable : JValue → Bool
  | .arr _ => false
  | .obj _ => false
  | _ => true

/-- Numeric value of a Python bool (`True == 1`, `False == 0`). -/
def boolInt (b : Bool) : Int := if b then 1 else 0

mutual
/-- Python `==` on the embedded values.  Booleans compare equal to their
numeric value; containers compare element-wise; values of unrelated
types compare unequal. -/
def pyEq : JValue → JValue → Bool
  | .null, .null => true
  | .bool a, .bool b => a == b
  | .bool a, .int b => boolInt a == b
  | .int a, .bool b => a == boolInt b
  | .int a, .int b => a == b
  | .str a, .str b => a == b
  | .arr a, .arr b => pyEqList a b
  | .obj a, .obj b => a.length == b.length && pyEqObjSub a b
  | _, _ => false

/-- Element-wise Python `==` on lists. -/
def pyEqList : List JValue → List JValue → Bool
  | [], [] => true
  | [], _ :: _ => false
  | _ :: _, [] => false
  | a :: as, b :: bs => pyEq a b && pyEqList as bs

/-- One inclusion of Python `dict` equality: every key/value pair of the
first object matches the second. -/
def pyEqObjSub : List (String × JValue) → List (String × JValue) → Bool
  | [], _ => true
  | (k, v) :: rest, ys =>
      (match objGet ys k with
       | some w => pyEq v w
       | none => false) && pyEqObjSub rest ys
end

/-- A single-quote character, used by the Python `repr` of strings. -/
def pyQuote : String := String.singleton (Char.ofNat 39)

mutual
/-- Python `str()` of a value, as used by f-string interpolation. -/
def pyStr : JValue → String
  | .null => "None"
  | .bool true => "True"
  | .bool false => "False"
  | .int n => toString n
  | .str s => s
  | .arr items => "[" ++ String.intercalate ", " (pyReprList items) ++ "]"
  | .obj fields => "\x7b" ++ String.intercalate ", " (pyReprObj fields) ++ "\x7d"

/-- Python `repr()` of a value (embedded quote escaping is not modelled;
no rendering rule of the program inspects the repr of a quoted string). -/
def pyRepr : JValue → String
  | .null => "None"
  | .bool true => "True"
  | .bool false => "False"
  | .int n => toString n
  | .str s => pyQuote ++ s ++ pyQuote
  | .arr items => "[" ++ String.intercalate ", " (pyReprList items) ++ "]"
  | .obj fields => "\x7b" ++ String.intercalate ", " (pyReprObj fields) ++ "\x7d"

/-- `repr` of each element of a list. -/
def pyReprList : List JValue → List String
  | [] => []
  | x :: xs => pyRepr x :: pyReprList xs

/-- `repr` of each key/value pair of a dict. -/
def pyReprObj : List (String × JValue) → List String
  | [] => []
  | (k, v) :: rest => (pyQuote ++ k ++ pyQuote ++ ": " ++ pyRepr v) :: pyReprObj rest
end

/-- Lexicographic (code-point) comparison of character lists,
the semantics of Python string `<`. -/
def lexLt : List Char → List Char → Bool
  | [], [] => false
  | [], _ :: _ => true
  | _ :: _, [] => false
  | a :: as, b :: bs => if a < b then true else if b < a then false else lexLt as bs

/-- Python `<` on strings: lexicographic by code point. -/
def strLtB (s t : String) : Bool := lexLt s.data t.data

/-- Non-strict companion of `strLtB`. -/
def strLeB (s t : String) : Bool := !(strLtB t s)

mutual
/-- Python `<` on the embedded values: numeric for ints/bools,
lexicographic for strings and lists, `TypeError` otherwise. -/
def pyLt : JValue → JValue → Except PyError Bool
  | .int a, .int b => .ok (decide (a < b))
  | .int a, .bool b => .ok (decide (a < boolInt b))
  | .bool a, .int b => .ok (decide (boolInt a < b))
  | .bool a, .bool b => .ok (decide (boolInt a < boolInt b))
  | .str a, .str b => .ok (strLtB a b)
  | .arr a, .arr b => pyLtList a b
  | _, _ => .error .typeError

/-- Python `<` on lists: skip equal heads, compare the first unequal pair. -/
def pyLtList : List JValue → List JValue → Except PyError Bool
  | [], [] => .ok false
  | [], _ :: _ => .ok true
  | _ :: _, [] => .ok false
  | x :: xs, y :: ys => if pyEq x y then pyLtList xs ys else pyLt x y
end

/-- Fields of a parsed `datetime` (timezone and microseconds do not
affect the `%Y-%m-%d %H:%M:%S` rendering and are dropped). -/
structure PyDateTime where
  year : Nat
  month : Nat
  day : Nat
  hour : Nat
  minute : Nat
  second : Nat
deriving Repr, DecidableEq

/-- Numeric value of a digit character. -/
def digitVal (c : Char) : Nat := c.toNat - 48

/-- Gregorian leap-year rule used by `datetime`. -/
def isLeapYear (y : Nat) : Bool := y % 4 == 0 && (y % 100 != 0 || y % 400 == 0)

/-- Days in a month, as validated by the `datetime` constructor. -/
def daysInMonth (y m : Nat) : Nat :=
  if m == 2 then (if isLeapYear y then 29 else 28)
  else if m == 4 || m == 6 || m == 9 || m == 11 then 30
  else 31

/-- CPython `parse_digits`: consume exactly `n` leading digit characters
into an accumulated value. -/
def parseDigits : Nat → Nat → List Char → Option (Nat × List Char)
  | 0, acc, cs => some (acc, cs)
  | _ + 1, _, [] => none
  | n + 1, acc, c :: cs =>
    if c.isDigit then parseDigits n (acc * 10 + digitVal c) cs else none

/-- `_days_before_year`: days before January 1 of `year`.  The C code
divides with truncation; only the four-zero-digit year 0 goes negative,
and no year-0 string survives the later range checks. -/
def daysBeforeYear (year : Int) : Int :=
  let y := year - 1
  y * 365 + Int.tdiv y 4 - Int.tdiv y 100 + Int.tdiv y 400

/-- `_DAYS_BEFORE_MONTH` (1-based, non-leap cumulative days). -/
def daysBeforeMonthTable (m : Nat) : Nat :=
  [0, 0, 31, 59, 90, 120, 151, 181, 212, 243, 273, 304, 334].getD m 0

/-- `_DAYS_IN_MONTH` (1-based, non-leap month lengths). -/
def daysInMonthTable (m : Nat) : Nat :=
  [0, 31, 28, 31, 30, 31, 30, 31, 31, 30, 31, 30, 31].getD m 0

/-- `_ymd2ord`: proleptic-Gregorian ordinal of a date (0001-01-01 is 1). -/
def ymd2ord (y m d : Nat) : Int :=
  daysBeforeYear y
    + (daysBeforeMonthTable m + (if 2 < m && isLeapYear y then 1 else 0))
    + d

/-- `iso_week1_monday`: ordinal of the Monday starting ISO week 1 of a
year (the week containing the year's first Thursday). -/
def isoweek1monday (year : Nat) : Int :=
  let firstday := ymd2ord year 1 1
  let firstweekday := Int.tmod (firstday + 6) 7
  let week1monday := firstday - firstweekday
  if 3 < firstweekday then week1monday + 7 else week1monday

/-- `ord_to_ymd`: Gregorian date of an ordinal (the C `divmod` helper
floors).  The year is `Int`: ordinals of year-0 ISO weeks fall below 1
and are weeded out by the constructor check. -/
def ord2ymd (ordinal : Int) : Int × Nat × Nat :=
  let n0 := ordinal - 1
  let n400 := Int.fdiv n0 146097
  let r400 := Int.fmod n0 146097
  let n100 := Int.fdiv r400 36524
  let r100 := Int.fmod r400 36524
  let n4 := Int.fdiv r100 1461
  let r4 := Int.fmod r100 1461
  let n1 := Int.fdiv r4 365
  let n := (Int.fmod r4 365).toNat
  let year := n400 * 400 + 1 + n100 * 100 + n4 * 4 + n1
  if n1 == 4 || n100 == 4 then
    (year - 1, 12, 31)
  else
    let leap := n1 == 3 && (n4 != 24 || n100 == 3)
    let month := (n + 50) >>> 5
    let preceding := daysBeforeMonthTable month + (if 2 < month && leap then 1 else 0)
    if n < preceding then
      let month := month - 1
      let preceding := preceding - (daysInMonthTable month
        + (if month == 2 && leap then 1 else 0))
      (year, month, n - preceding + 1)
    else
      (year, month, n - preceding + 1)

/-- `iso_to_ymd`: validate an ISO week date (week 53 exists only when
January 1 is a Thursday, or a Wednesday of a leap year) and convert it
to a Gregorian date. -/
def isoToYmd (isoYear isoWeek isoDay : Nat) : Option (Int × Nat × Nat) :=
  let firstWeekday := Int.tmod (ymd2ord isoYear 1 1 + 6) 7
  let week53ok := firstWeekday == 3 || (firstWeekday == 2 && isLeapYear isoYear)
  if (isoWeek == 0 || 53 ≤ isoWeek) && !(isoWeek == 53 && week53ok) then none
  else if isoDay == 0 || 8 ≤ isoDay then none
  else
    let ordinal := isoweek1monday isoYear + ((isoWeek : Int) - 1) * 7 + ((isoDay : Int) - 1)
    some (ord2ymd ordinal)

/-- `parse_isoformat_date`: a 4-digit year, then either `W` + 2-digit
week (optionally a separator-consistent dash and a 1-digit weekday),
converted through `isoToYmd`, or a 2-digit month and day.  Range checks
are the constructor's job. -/
def parseIsoDate (ds : List Char) : Option (Int × Nat × Nat) :=
  match parseDigits 4 0 ds with
  | none => none
  | some (year, r0) =>
    let usesSep := r0.head? == some '-'
    let r1 := if usesSep then r0.tail else r0
    match r1 with
    | 'W' :: r2 =>
      match parseDigits 2 0 r2 with
      | none => none
      | some (week, r3) =>
        match r3 with
        | [] => isoToYmd year week 1
        | c :: r4 =>
          if (c == '-') != usesSep then none
          else
            match parseDigits 1 0 (if c == '-' then r4 else c :: r4) with
            | none => none
            | some (day, _) => isoToYmd year week day
    | _ =>
      match parseDigits 2 0 r1 with
      | none => none
      | some (month, r2) =>
        let r3 := if usesSep then (if r2.head? == some '-' then some r2.tail else none)
                  else some r2
        match r3 with
        | none => none
        | some r4 =>
          match parseDigits 2 0 r4 with
          | none => none
          | some (day, _) => some (year, month, day)

/-- Index right after the last digit of a run starting at index `i`
(the week-date scan of the separator finder). -/
def scanDigitsFrom : List Char → Nat → Nat
  | [], i => i
  | c :: cs, i => if c.isDigit then scanDigitsFrom cs (i + 1) else i

/-- `_find_isoformat_datetime_separator`: where the time separator
character sits, decided from the shape of characters 4 and 5; `none` is
the rejected length-9 `YYYY-Www-` form. -/
def findIsoSep (cs : List Char) : Option Nat :=
  let n := cs.length
  if n == 7 then some 7
  else if cs.getD 4 ' ' == '-' then
    if cs.getD 5 ' ' == 'W' then
      if 8 < n && cs.getD 8 ' ' == '-' then
        if n == 9 then none
        else if 10 < n && (cs.getD 10 ' ').isDigit then some 8
        else some 10
      else some 8
    else some 10
  else if cs.getD 4 ' ' == 'W' then
    let idx := scanDigitsFrom (cs.drop 7) 7
    if idx < 9 then some idx
    else if idx % 2 == 0 then some 7
    else some 8
  else some 8

/-- Fractional-seconds tail of `parse_hh_mm_ss_ff`: the first
`min 6 len` characters are digit-parsed and scaled to microseconds, and
anything after them must also be digits. -/
def parseFraction (cs : List Char) : Option Nat :=
  let toParse := min 6 cs.length
  match parseDigits toParse 0 cs with
  | none => none
  | some (v, rest) =>
    if rest.all Char.isDigit then some (v * 10 ^ (6 - toParse)) else none

/-- `parse_hh_mm_ss_ff`, third round of the component loop (seconds).
After it the loop exits, so `:` under separators, `.`/`,`, and a bare
digit all fall through to the fraction parse; a component ending exactly
at the slice boundary succeeds, one character short of it only when the
boundary is a timezone marker (the C code reads that marker as the
terminating character and its caller tolerates the resulting code 1). -/
def parseHMSFsec (hasSep tzFollows : Bool) (h m : Nat) (cs : List Char) :
    Option (Nat × Nat × Nat × Nat) :=
  match parseDigits 2 0 cs with
  | none => none
  | some (s, r) =>
    match r with
    | [] => some (h, m, s, 0)
    | c :: rest =>
      if rest.isEmpty then
        if tzFollows then some (h, m, s, 0) else none
      else if hasSep && c == ':' then
        (parseFraction rest).map fun us => (h, m, s, us)
      else if c == '.' || c == ',' then
        (parseFraction rest).map fun us => (h, m, s, us)
      else if !hasSep then
        (parseFraction (c :: rest)).map fun us => (h, m, s, us)
      else none

/-- `parse_hh_mm_ss_ff`, second round (minutes). -/
def parseHMSFmin (hasSep tzFollows : Bool) (h : Nat) (cs : List Char) :
    Option (Nat × Nat × Nat × Nat) :=
  match parseDigits 2 0 cs with
  | none => none
  | some (m, r) =>
    match r with
    | [] => some (h, m, 0, 0)
    | c :: rest =>
      if rest.isEmpty then
        if tzFollows then some (h, m, 0, 0) else none
      else if hasSep && c == ':' then
        parseHMSFsec hasSep tzFollows h m rest
      else if c == '.' || c == ',' then
        (parseFraction rest).map fun us => (h, m, 0, us)
      else if !hasSep then
        parseHMSFsec hasSep tzFollows h m (c :: rest)
      else none

/-- `parse_hh_mm_ss_ff`, first round: the character right after the hour
digits decides `has_separator`. -/
def parseHMSF (tzFollows : Bool) (cs : List Char) :
    Option (Nat × Nat × Nat × Nat) :=
  match parseDigits 2 0 cs with
  | none => none
  | some (h, r) =>
    match r with
    | [] => some (h, 0, 0, 0)
    | c :: rest =>
      let hasSep := c == ':'
      if rest.isEmpty then
        if tzFollows then some (h, 0, 0, 0) else none
      else if hasSep then
        parseHMSFmin hasSep tzFollows h rest
      else if c == '.' || c == ',' then
        (parseFraction rest).map fun us => (h, 0, 0, us)
      else
        parseHMSFmin hasSep tzFollows h (c :: rest)

/-- Index of the first timezone marker (`Z`, `+` or `-`) in the time
slice, or its length. -/
def tzMarkerIdx : List Char → Nat
  | [] => 0
  | c :: cs => if c == 'Z' || c == '+' || c == '-' then 0 else tzMarkerIdx cs + 1

/-- `parse_isoformat_time`: the clock up to the first timezone marker,
then the timezone — a `Z` must be final, a signed offset reuses the
clock parser (so `+HH`, `+HHMM`, seconds, fractions and out-of-range
minutes are all accepted) and only its total magnitude must stay under
24 hours.  Microseconds and the offset gate validity but are dropped:
`%Y-%m-%d %H:%M:%S` never shows them. -/
def parseIsoTime (cs : List Char) : Option (Nat × Nat × Nat) :=
  let tzpos := tzMarkerIdx cs
  let tzFollows := tzpos < cs.length
  match parseHMSF tzFollows (cs.take tzpos) with
  | none => none
  | some (h, m, s, _) =>
    match cs.drop tzpos with
    | [] => some (h, m, s)
    | 'Z' :: rest => if rest.isEmpty then some (h, m, s) else none
    | _ :: tail =>
      match parseHMSF false tail with
      | none => none
      | some (th, tm, ts, tus) =>
        if (th * 3600 + tm * 60 + ts) * 1000000 + tus < 86400000000 then
          some (h, m, s)
        else none

/-- The `datetime` constructor's range checks on the parsed fields. -/
def mkDateTime (y : Int) (mo d h mi se : Nat) : Option PyDateTime :=
  if 1 ≤ y && y ≤ 9999 && 1 ≤ mo && mo ≤ 12 && 1 ≤ d && d ≤ daysInMonth y.toNat mo
      && h ≤ 23 && mi ≤ 59 && se ≤ 59 then
    some ⟨y.toNat, mo, d, h, mi, se⟩
  else none

/-- `datetime.fromisoformat`, as the CPython 3.11 C parser implements
it: at least 7 characters, locate the separator, parse the date prefix,
parse a time exactly when characters follow the separator position, and
validate ranges; `none` models a raised `ValueError`. -/
def pyFromIsoformat (s : String) : Option PyDateTime :=
  if s.data.length < 7 then none
  else
    match findIsoSep s.data with
    | none => none
    | some sep =>
      match parseIsoDate (s.data.take sep) with
      | none => none
      | some (y, mo, d) =>
        match (if sep < s.data.length then parseIsoTime (s.data.drop (sep + 1))
               else some (0, 0, 0)) with
        | none => none
        | some (h, mi, se) => mkDateTime y mo d h mi se

/-- The decimal digit character for `n % 10`. -/
def digCh (n : Nat) : Char := Char.ofNat (48 + n % 10)

/-- Zero-padded two-digit rendering (strftime `%m`/`%d`/`%H`/`%M`/`%S`). -/
def twoDig (n : Nat) : String := ⟨[digCh (n / 10), digCh n]⟩

/-- Four-digit rendering, the shape `%Y` takes for years 1000–9999. -/
def fourDig (n : Nat) : String := ⟨[digCh (n / 1000), digCh (n / 100), digCh (n / 10), digCh n]⟩

/-- Digits of `n` most-significant first; the fuel only bounds the
recursion and any fuel ≥ the digit count gives the same value. -/
def natDecAux : Nat → Nat → List Char
  | 0, _ => []
  | fuel + 1, n => if n == 0 then [] else natDecAux fuel (n / 10) ++ [digCh n]

/-- Unpadded decimal rendering: glibc `strftime` does not zero-pad `%Y`,
so years below 1000 print with fewer than four digits. -/
def natDec (n : Nat) : String := if n == 0 then "0" else ⟨natDecAux n n⟩

/-- `strftime('%Y-%m-%d %H:%M:%S')` under glibc. -/
def pyStrftime (dt : PyDateTime) : String :=
  natDec dt.year ++ "-" ++ twoDig dt.month ++ "-" ++ twoDig dt.day ++ " "
    ++ twoDig dt.hour ++ ":" ++ twoDig dt.minute ++ ":" ++ twoDig dt.second

/-- `date_str.replace('Z', '+00:00')`. -/
def pyReplaceZ (s : String) : String :=
  ⟨(s.data.map fun c => if c = 'Z' then "+00:00".data else [c]).flatten⟩

/-- Replacement of only a trailing `Z` by `+00:00` — the normalisation
the specification describes, for comparison with `pyReplaceZ`. -/
def replaceTrailingZ (s : String) : String :=
  if s.data.getLast? == some 'Z' then ⟨s.data.dropLast ++ "+00:00".data⟩ else s

/-- `format_timestamp` on a string argument: parse best-effort, echo the
input when `fromisoformat` raises. -/
def formatTimestampStr (s : String) : String :=
  match pyFromIsoformat (pyReplaceZ s) with
  | some dt => pyStrftime dt
  | none => s

/-- `format_timestamp` as applied to an arbitrary field value: on a
non-string, `.replace` raises `AttributeError`, which the function
catches, returning the value unchanged. -/
def formatTimestampV : JValue → JValue
  | .str s => .str (formatTimestampStr s)
  | v => v

/-- `s.replace('\n', ' ')`. -/
def collapseNewlines (s : String) : String :=
  ⟨s.data.map fun c => if c = '\n' then ' ' else c⟩

/-- Whether the first list is an initial segment of the second. -/
def listStartsWith : List Char → List Char → Bool
  | [], _ => true
  | _ :: _, [] => false
  | a :: as, b :: bs => a == b && listStartsWith as bs

/-- Python `s.startswith(pat)`. -/
def strStartsWith (s pat : String) : Bool := listStartsWith pat.data s.data

/-- Python whitespace (ASCII part) for `str.strip`. -/
def isPySpace (c : Char) : Bool :=
  c == ' ' || c == '\t' || c == '\n' || c == '\r' || c.toNat == 11 || c.toNat == 12

/-- Python `s.strip()`: whitespace removed from both ends. -/
def pyStrip (s : String) : String :=
  ⟨((s.data.dropWhile isPySpace).reverse.dropWhile isPySpace).reverse⟩

/-- Python slicing `s[:n]`: the first `n` code points. -/
def pyTake (s : String) (n : Nat) : String := ⟨s.data.take n⟩

/-- `''.join` over already-checked strings. -/
def strConcat : List String → String
  | [] => ""
  | s :: ss => s ++ strConcat ss

/-- `''.join(result)`: every piece must be a string, else `TypeError`. -/
def asStrList : List JValue → Except PyError (List String)
  | [] => .ok []
  | .str s :: rest => do
      let more ← asStrList rest
      .ok (s :: more)
  | _ :: _ => .error .typeError

/-- The strings appended to `result` for one element of a text list.
A plain string is kept; a dict is rendered by its annotation `type`
(branches that append the raw `text` value keep it unchecked — the
final `join` raises if it is not a string; `mention` calls
`.startswith` on it, raising `AttributeError` when it is not a string);
any other element appends nothing. -/
def itemPieces (item : JValue) : Except PyError (List JValue) :=
  match item with
  | .str s => .ok [.str s]
  | .obj f =>
    let text := (objGet f "text").getD (.str "")
    let itype := (objGet f "type").getD (.str "")
    if pyEq itype (.str "bold") then .ok [.str ("**" ++ pyStr text ++ "**")]
    else if pyEq itype (.str "italic") then .ok [.str ("*" ++ pyStr text ++ "*")]
    else if pyEq itype (.str "code") then .ok [.str ("`" ++ pyStr text ++ "`")]
    else if pyEq itype (.str "pre") then .ok [.str ("\n```\n" ++ pyStr text ++ "\n```\n")]
    else if pyEq itype (.str "text_link") then
      let href := (objGet f "href").getD (.str "")
      .ok [.str ("[" ++ pyStr text ++ "](" ++ pyStr href ++ ")")]
    else if pyEq itype (.str "link") then .ok [text]
    else if pyEq itype (.str "mention") || pyEq itype (.str "mention_name") then
      match text with
      | .str t => .ok [.str (if !(strStartsWith t "@") then "@" ++ t else t)]
      | _ => .error .attributeError
    else if pyEq itype (.str "hashtag") then .ok [text]
    else if pyEq itype (.str "email") then .ok [text]
    else if pyEq itype (.str "phone") then .ok [text]
    else if pyEq itype (.str "strikethrough") then .ok [.str ("~~" ++ pyStr text ++ "~~")]
    else if pyEq itype (.str "underline") then .ok [.str ("<u>" ++ pyStr text ++ "</u>")]
    else if pyEq itype (.str "spoiler") then .ok [.str ("||" ++ pyStr text ++ "||")]
    else if pyEq itype (.str "custom_emoji") then .ok [text]
    else .ok [text]
  | _ => .ok []

/-- The `result` list accumulated by the loop over a text list. -/
def extractPieces : List JValue → Except PyError (List JValue)
  | [] => .ok []
  | item :: rest => do
      let ps ← itemPieces item
      let more ← extractPieces rest
      .ok (ps ++ more)

/-- `extract_text_content`: strings pass through, lists are rendered
span by span and joined, anything else is stringified if truthy. -/
def extractTextContent : JValue → Except PyError String
  | .str s => .ok s
  | .arr items => do
      let pieces ← extractPieces items
      let ss ← asStrList pieces
      .ok (strConcat ss)
  | v => .ok (if truthy v then pyStr v else "")

/-- `get_message_type_info`: first matching rule produces the one tag;
`location_information`/`contact_information`/`poll` payloads must be
dicts (attribute access on them), and contact name parts must be
strings (`+` concatenation), else the corresponding error is raised. -/
def getMessageTypeInfo (fields : List (String × JValue)) : Except PyError String :=
  let mediaType := (objGet fields "media_type").getD .null
  if pyEq mediaType (.str "sticker") then
    .ok ("[Sticker " ++ pyStr ((objGet fields "sticker_emoji").getD (.str "")) ++ "]")
  else if pyEq mediaType (.str "voice_message") then
    .ok ("[Voice message - " ++ pyStr ((objGet fields "duration_seconds").getD (.int 0)) ++ "s]")
  else if pyEq mediaType (.str "video_message") then
    .ok ("[Video message - " ++ pyStr ((objGet fields "duration_seconds").getD (.int 0)) ++ "s]")
  else if pyEq mediaType (.str "animation") then .ok "[GIF]"
  else if pyEq mediaType (.str "video_file") then .ok "[Video]"
  else if pyEq mediaType (.str "audio_file") then
    let title := (objGet fields "title").getD (.str "Audio")
    let performer := (objGet fields "performer").getD (.str "")
    if truthy performer then
      .ok ("[Audio: " ++ pyStr performer ++ " - " ++ pyStr title ++ "]")
    else .ok ("[Audio: " ++ pyStr title ++ "]")
  else if (objGet fields "photo").isSome then .ok "[Photo]"
  else if (objGet fields "file").isSome then
    let fileName := (objGet fields "file_name").getD ((objGet fields "file").getD (.str "File"))
    .ok ("[File: " ++ pyStr fileName ++ "]")
  else if (objGet fields "location_information").isSome then
    match (objGet fields "location_information").getD (.obj []) with
    | .obj loc =>
        .ok ("[Location: " ++ pyStr ((objGet loc "latitude").getD (.str "")) ++ ", "
          ++ pyStr ((objGet loc "longitude").getD (.str "")) ++ "]")
    | _ => .error .attributeError
  else if (objGet fields "contact_information").isSome then
    match (objGet fields "contact_information").getD (.obj []) with
    | .obj contact => do
        let firstName ← match (objGet contact "first_name").getD (.str "") with
          | .str s => Except.ok s
          | _ => Except.error PyError.typeError
        let lastName ← match (objGet contact "last_name").getD (.str "") with
          | .str s => Except.ok s
          | _ => Except.error PyError.typeError
        let phone := (objGet contact "phone_number").getD (.str "")
        .ok ("[Contact: " ++ pyStrip (firstName ++ " " ++ lastName) ++ " - " ++ pyStr phone ++ "]")
    | _ => .error .attributeError
  else if (objGet fields "poll").isSome then
    match (objGet fields "poll").getD (.obj []) with
    | .obj poll => .ok ("[Poll: " ++ pyStr ((objGet poll "question").getD (.str "Poll")) ++ "]")
    | _ => .error .attributeError
  else .ok ""

/-- The fixed action-code table, looked up with the (hashable) action
value; a non-string action never matches a key and falls through to the
`*[<action>]*` default. -/
def serviceSentence (fields : List (String × JValue)) (action actor : JValue) : String :=
  if pyEq action (.str "create_group") then "*" ++ pyStr actor ++ " created the group*"
  else if pyEq action (.str "invite_members") then
    "*" ++ pyStr actor ++ " invited members to the group*"
  else if pyEq action (.str "remove_members") then
    "*" ++ pyStr actor ++ " removed members from the group*"
  else if pyEq action (.str "join_group_by_link") then
    "*" ++ pyStr actor ++ " joined the group via invite link*"
  else if pyEq action (.str "leave_group") then "*" ++ pyStr actor ++ " left the group*"
  else if pyEq action (.str "pin_message") then "*" ++ pyStr actor ++ " pinned a message*"
  else if pyEq action (.str "edit_group_title") then
    "*" ++ pyStr actor ++ " changed the group title to \""
      ++ pyStr ((objGet fields "title").getD (.str "")) ++ "\"*"
  else if pyEq action (.str "edit_group_photo") then
    "*" ++ pyStr actor ++ " changed the group photo*"
  else if pyEq action (.str "delete_group_photo") then
    "*" ++ pyStr actor ++ " deleted the group photo*"
  else if pyEq action (.str "migrate_from_group") then "*Group upgraded to supergroup*"
  else if pyEq action (.str "migrate_to_supergroup") then "*Group upgraded to supergroup*"
  else if pyEq action (.str "phone_call") then "*Phone call with " ++ pyStr actor ++ "*"
  else if pyEq action (.str "score_in_game") then "*" ++ pyStr actor ++ " scored in a game*"
  else if pyEq action (.str "bot_allowed") then "*Bot allowed by " ++ pyStr actor ++ "*"
  else "*[" ++ pyStr action ++ "]*"

/-- `format_service_message`: `dict.get` with an unhashable action value
raises `TypeError`; the actor falls back from `actor` to `from` to the
literal `Someone`. -/
def formatServiceMessage (fields : List (String × JValue)) : Except PyError String :=
  let action := (objGet fields "action").getD (.str "")
  let actor := match objGet fields "actor" with
    | some v => v
    | none => (objGet fields "from").getD (.str "Someone")
  if hashable action then .ok (serviceSentence fields action actor)
  else .error .typeError

/-- Python `in` on a container: key test for dicts (unhashable key
raises), substring test for strings, element test for lists,
`TypeError` otherwise. -/
def pyInOp (needle container : JValue) : Except PyError Bool :=
  match container with
  | .obj kvs =>
      if hashable needle then .ok (kvs.any fun kv => pyEq needle (.str kv.1))
      else .error .typeError
  | .str s =>
      match needle with
      | .str p => .ok (p.isEmpty || decide ((s.splitOn p).length ≥ 2))
      | _ => .error .typeError
  | .arr xs => .ok (xs.any fun x => pyEq needle x)
  | _ => .error .typeError

/-- `v.get(key)` (default `None`): only dicts have `.get`. -/
def pyGetOnValue (v : JValue) (key : String) : Except PyError JValue :=
  match v with
  | .obj f => .ok ((objGet f key).getD .null)
  | _ => .error .attributeError

/-- Insertion into the message index, overwriting an existing equal key
in place (Python `dict` assignment). -/
def idxInsert : List (JValue × JValue) → JValue → JValue → List (JValue × JValue)
  | [], k, v => [(k, v)]
  | (k0, v0) :: rest, k, v =>
      if pyEq k0 k then (k0, v) :: rest else (k0, v0) :: idxInsert rest k v

/-- Lookup in the message index by Python equality. -/
def idxLookup : List (JValue × JValue) → JValue → Option JValue
  | [], _ => none
  | (k0, v0) :: rest, k => if pyEq k0 k then some v0 else idxLookup rest k

/-- Membership in the message index. -/
def idxMemB (idx : List (JValue × JValue)) (k : JValue) : Bool := (idxLookup idx k).isSome

/-- `build_message_index`: `{msg.get('id'): msg for msg in messages if 'id' in msg}`. -/
def buildMessageIndexGo (idx : List (JValue × JValue)) :
    List JValue → Except PyError (List (JValue × JValue))
  | [] => .ok idx
  | msg :: rest => do
      let hasId ← pyInOp (.str "id") msg
      if hasId then do
        let idv ← pyGetOnValue msg "id"
        if hashable idv then buildMessageIndexGo (idxInsert idx idv msg) rest
        else .error .typeError
      else buildMessageIndexGo idx rest

/-- Entry point of the index comprehension. -/
def buildMessageIndex (messages : List JValue) : Except PyError (List (JValue × JValue)) :=
  buildMessageIndexGo [] messages

/-- The regular-message sender: `message.get('from', message.get('actor', 'Unknown'))`. -/
def senderOf (fields : List (String × JValue)) : JValue :=
  match objGet fields "from" with
  | some v => v
  | none => (objGet fields "actor").getD (.str "Unknown")

/-- The first three lines of a content-message block: heading,
timestamp/id line, blank. -/
def contentHead (fields : List (String × JValue)) : List String :=
  ["### " ++ pyStr (senderOf fields),
   "*" ++ pyStr (formatTimestampV ((objGet fields "date").getD (.str ""))) ++ "* | Message #"
     ++ pyStr ((objGet fields "id").getD (.str "")),
   ""]

/-- The reply-quote block: emitted only when `reply_to_message_id` is
truthy and found in the index; the membership test hashes the key
(unhashable → `TypeError`); the original's fields are read with `.get`
(non-dict original → `AttributeError`); the quoted text is truncated to
100 characters plus `...` and then newline-collapsed. -/
def replySegment (fields : List (String × JValue)) (messageIndex : List (JValue × JValue)) :
    Except PyError (List String) :=
  let replyToId := (objGet fields "reply_to_message_id").getD .null
  if truthy replyToId then
    if hashable replyToId then
      match idxLookup messageIndex replyToId with
      | some original =>
        (match original with
         | .obj og => do
             let originalSender := senderOf og
             let t ← extractTextContent ((objGet og "text").getD (.str ""))
             let t1 := if t.length > 100 then pyTake t 100 ++ "..." else t
             let t2 := collapseNewlines t1
             .ok ["> **↩ Reply to " ++ pyStr originalSender ++ ":** " ++ t2, ""]
         | _ => .error .attributeError)
      | none => .ok []
    else .error .typeError
  else .ok []

/-- The forwarded-from block: emitted when `forwarded_from` is truthy. -/
def forwardSegment (fields : List (String × JValue)) : List String :=
  let forwardedFrom := (objGet fields "forwarded_from").getD .null
  if truthy forwardedFrom then
    ["> **↪ Forwarded from " ++ pyStr forwardedFrom ++ "**", ""]
  else []

/-- The media/text/empty-message lines of a content block. -/
def bodySegment (text mediaInfo : String) : List String :=
  (if mediaInfo ≠ "" then ["📎 " ++ mediaInfo] ++ (if text ≠ "" then [""] else []) else [])
    ++ (if text ≠ "" then [text] else [])
    ++ (if text = "" ∧ mediaInfo = "" then ["*[Empty message]*"] else [])

/-- `format_message`, as the list of lines joined at the end
(`'\n'.join(lines)`): a service message renders to a two-line quoted
block, a content message to heading + reply + forward + body + rule. -/
def formatMessageLines (message : JValue) (messageIndex : List (JValue × JValue)) :
    Except PyError (List String) :=
  match message with
  | .obj fields =>
    if pyEq ((objGet fields "type").getD .null) (.str "service") then do
      let serviceText ← formatServiceMessage fields
      .ok ["> " ++ serviceText,
           "> *" ++ pyStr (formatTimestampV ((objGet fields "date").getD (.str ""))) ++ "*",
           ""]
    else do
      let rp ← replySegment fields messageIndex
      let text ← extractTextContent ((objGet fields "text").getD (.str ""))
      let mediaInfo ← getMessageTypeInfo fields
      .ok (contentHead fields ++ rp ++ forwardSegment fields
            ++ bodySegment text mediaInfo ++ ["", "---", ""])
  | _ => .error .attributeError

/-- `format_message` proper: the lines joined with newlines. -/
def formatMessage (message : JValue) (messageIndex : List (JValue × JValue)) :
    Except PyError String :=
  (formatMessageLines message messageIndex).map fun ls => String.intercalate "\n" ls

/-- Python `len()`: strings, lists and dicts have a length, other
values raise `TypeError`. -/
def pyLen : JValue → Except PyError Nat
  | .str s => .ok s.length
  | .arr xs => .ok xs.length
  | .obj kvs => .ok kvs.length
  | _ => .error .typeError

/-- Python iteration (`for x in v`): lists yield elements, strings
yield one-character strings, dicts yield their keys; other values raise
`TypeError`. -/
def pyIter : JValue → Except PyError (List JValue)
  | .arr xs => .ok xs
  | .str s => .ok (s.data.map fun c => .str (String.singleton c))
  | .obj kvs => .ok (kvs.map fun kv => .str kv.1)
  | _ => .error .typeError

/-- `[m.get('date') for m in messages if m.get('date')]`. -/
def collectDates : List JValue → Except PyError (List JValue)
  | [] => .ok []
  | m :: rest => do
      let d ← pyGetOnValue m "date"
      let more ← collectDates rest
      .ok (if truthy d then d :: more else more)

/-- The loop of Python `min`: replace the best element when a later one
compares strictly below it (first kept on ties). -/
def pyMinGo (best : JValue) : List JValue → Except PyError JValue
  | [] => .ok best
  | y :: ys => do
      let b ← pyLt y best
      pyMinGo (if b then y else best) ys

/-- Python `min` over a nonempty list. -/
def pyMin : List JValue → Except PyError JValue
  | [] => .error .valueError
  | x :: xs => pyMinGo x xs

/-- The loop of Python `max` (comparison `best < y`, first kept on ties). -/
def pyMaxGo (best : JValue) : List JValue → Except PyError JValue
  | [] => .ok best
  | y :: ys => do
      let b ← pyLt best y
      pyMaxGo (if b then y else best) ys

/-- Python `max` over a nonempty list. -/
def pyMax : List JValue → Except PyError JValue
  | [] => .error .valueError
  | x :: xs => pyMaxGo x xs

/-- `set.add`: keep the first element equal to the new one. -/
def setAdd (s : List JValue) (v : JValue) : List JValue :=
  if s.any fun x => pyEq x v then s else s ++ [v]

/-- The participants loop with the set accumulated so far:
`sender = msg.get('from') or msg.get('actor')`, added to the set when
truthy (an unhashable sender raises `TypeError`). -/
def collectParticipantsFrom (s : List JValue) : List JValue → Except PyError (List JValue)
  | [] => .ok s
  | m :: rest => do
      let fr ← pyGetOnValue m "from"
      let sender ← if truthy fr then pure fr else pyGetOnValue m "actor"
      if truthy sender then
        if hashable sender then collectParticipantsFrom (setAdd s sender) rest
        else .error .typeError
      else collectParticipantsFrom s rest

/-- The participants loop starting from the empty set. -/
def collectParticipants (messages : List JValue) : Except PyError (List JValue) :=
  collectParticipantsFrom [] messages

/-- One step of Python's `sorted` insertion (stable, ascending by `<`). -/
def pyInsertSorted (x : JValue) : List JValue → Except PyError (List JValue)
  | [] => .ok [x]
  | y :: ys => do
      let b ← pyLt x y
      if b then pure (x :: y :: ys)
      else do
        let rest ← pyInsertSorted x ys
        pure (y :: rest)

/-- Python `sorted`: stable ascending sort; comparing incomparable
elements raises `TypeError`. -/
def pySorted : List JValue → Except PyError (List JValue)
  | [] => .ok []
  | x :: xs => do
      let rest ← pySorted xs
      pyInsertSorted x rest

/-- `str.title()` (ASCII case mapping): uppercase a letter after a
non-letter, lowercase the rest. -/
def titleAux : List Char → Bool → List Char
  | [], _ => []
  | c :: cs, prevAlpha =>
      if c.isAlpha then (if prevAlpha then c.toLower else c.toUpper) :: titleAux cs true
      else c :: titleAux cs false

/-- Python `s.replace('_', ' ').title()`, the chat-type display form. -/
def pyTitleUnderscore (s : String) : String :=
  ⟨titleAux (s.data.map fun c => if c = '_' then ' ' else c) false⟩

/-- The first/last-message table rows: computed only when `messages` is
truthy and at least one truthy date exists, by string `min`/`max` over
the raw date values, then formatted. -/
def dateRowsSegment (messages : JValue) : Except PyError (List String) :=
  if truthy messages then do
    let iterMsgs ← pyIter messages
    let dates ← collectDates iterMsgs
    if dates.isEmpty then pure []
    else do
      let mn ← pyMin dates
      let mx ← pyMax dates
      pure ["| **First Message** | " ++ pyStr (formatTimestampV mn) ++ " |",
            "| **Last Message** | " ++ pyStr (formatTimestampV mx) ++ " |"]
  else pure []

/-- The participants bullet section: present only when the set is
nonempty, sorted with Python `sorted`. -/
def participantsSection (participants : List JValue) : Except PyError (List String) :=
  if participants.isEmpty then pure []
  else do
    let sortedParts ← pySorted participants
    pure (["### Participants", ""]
      ++ sortedParts.map (fun p => "- " ++ pyStr p) ++ [""])

/-- `generate_chat_header`, as the list of lines joined at the end. -/
def generateChatHeaderLines (chatData : List (String × JValue)) :
    Except PyError (List String) := do
  let chatName := (objGet chatData "name").getD (.str "Telegram Chat")
  let chatType := (objGet chatData "type").getD (.str "unknown")
  let chatId := (objGet chatData "id").getD (.str "")
  let typeDisp ← match chatType with
    | .str t => Except.ok (pyTitleUnderscore t)
    | _ => Except.error PyError.attributeError
  let messages := (objGet chatData "messages").getD (.arr [])
  let nMsgs ← pyLen messages
  let base := ["# " ++ pyStr chatName, "", "## Chat Details", "",
    "| Property | Value |", "|----------|-------|",
    "| **Name** | " ++ pyStr chatName ++ " |",
    "| **Type** | " ++ typeDisp ++ " |",
    "| **ID** | " ++ pyStr chatId ++ " |",
    "| **Total Messages** | " ++ toString nMsgs ++ " |"]
  let dateRows ← dateRowsSegment messages
  let iterMsgs2 ← pyIter messages
  let participants ← collectParticipants iterMsgs2
  let countRows := if participants.isEmpty then []
    else ["| **Participants** | " ++ toString participants.length ++ " |"]
  let partSection ← participantsSection participants
  .ok (base ++ dateRows ++ countRows ++ [""] ++ partSection ++ ["---", "", "## Messages", ""])

/-- `generate_chat_header` proper: the lines joined with newlines. -/
def generateChatHeader (chatData : List (String × JValue)) : Except PyError String :=
  (generateChatHeaderLines chatData).map fun ls => String.intercalate "\n" ls

/-- The loop rendering every message in order. -/
def renderAll (messageIndex : List (JValue × JValue)) :
    List JValue → Except PyError (List String)
  | [] => .ok []
  | m :: rest => do
      let b ← formatMessage m messageIndex
      let more ← renderAll messageIndex rest
      .ok (b :: more)

/-- `convert_to_markdown`, as its `output_parts` list: the header block
followed by one rendered block per message, joined with newlines at the
end. -/
def convertToMarkdownParts (chatData : List (String × JValue)) :
    Except PyError (List String) := do
  let header ← generateChatHeader chatData
  let messages := (objGet chatData "messages").getD (.arr [])
  let iterMsgs ← pyIter messages
  let messageIndex ← buildMessageIndex iterMsgs
  let blocks ← renderAll messageIndex iterMsgs
  .ok (header :: blocks)

/-- `convert_to_markdown` proper. -/
def convertToMarkdown (chatData : List (String × JValue)) : Except PyError String :=
  (convertToMarkdownParts chatData).map fun ps => String.intercalate "\n" ps

/-- `YYYY-MM-DD HH:MM:SS` shape: 19 characters, digits and fixed
separators. -/
def isFixedForm (t : String) : Bool :=
  match t.data with
  | [a, b, c, d, '-', e, f, '-', g, h, ' ', i, j, ':', k, l, ':', m, n] =>
      [a, b, c, d, e, f, g, h, i, j, k, l, m, n].all Char.isDigit
  | _ => false

/-- No media rule of `get_message_type_info` matches: the media type is
none of the six recognised ones and none of the payload keys is
present. -/
def mediaNoRule (fields : List (String × JValue)) : Bool :=
  let mt := (objGet fields "media_type").getD .null
  !(pyEq mt (.str "sticker")) && !(pyEq mt (.str "voice_message"))
    && !(pyEq mt (.str "video_message")) && !(pyEq mt (.str "animation"))
    && !(pyEq mt (.str "video_file")) && !(pyEq mt (.str "audio_file"))
    && !(objGet fields "photo").isSome && !(objGet fields "file").isSome
    && !(objGet fields "location_information").isSome
    && !(objGet fields "contact_information").isSome
    && !(objGet fields "poll").isSome

/-- The reply block of a message renders without raising: a truthy
reply-reference must be hashable, and a resolved original must be a
dict whose text extracts without raising. -/
def replySafe (fields : List (String × JValue)) (idx : List (JValue × JValue)) : Bool :=
  let rid := (objGet fields "reply_to_message_id").getD .null
  !truthy rid || (hashable rid &&
    (match idxLookup idx rid with
     | some (.obj og) => isOkE (extractTextContent ((objGet og "text").getD (.str "")))
     | some _ => false
     | none => true))

/-- All raise points of `format_message` are avoided: for a service
message the action value is hashable; for a content message the reply
block is safe and the message's own text and media payloads extract
without raising. -/
def msgRenderSafe (fields : List (String × JValue)) (idx : List (JValue × JValue)) : Bool :=
  if pyEq ((objGet fields "type").getD .null) (.str "service") then
    hashable ((objGet fields "action").getD (.str ""))
  else
    replySafe fields idx
      && isOkE (extractTextContent ((objGet fields "text").getD (.str "")))
      && isOkE (getMessageTypeInfo fields)

/-- The rendered text of one span, on its own: the strings it appends,
joined.  A span skipped by the loop (neither string nor dict) renders
to the empty string. -/
def spanRender (item : JValue) : Except PyError String := do
  let ps ← itemPieces item
  let ss ← asStrList ps
  .ok (strConcat ss)

/-- Each span rendered independently, in order. -/
def spanRenderAll : List JValue → Except PyError (List String)
  | [] => .ok []
  | x :: xs => do
      let s ← spanRender x
      let rest ← spanRenderAll xs
      .ok (s :: rest)

/-- Messages of the two-message witness archive. -/
def c9ms : List JValue :=
  [.obj [("id", .int 1), ("from", .str "A"), ("text", .str "one")],
   .obj [("type", .str "service"), ("action", .str "pin_message"), ("actor", .str "B")]]

/-- The witness archive. -/
def c9chat : List (String × JValue) :=
  [("name", .str "W"), ("type", .str "personal_chat"), ("id", .int 3),
   ("messages", .arr c9ms)]

/-- Its computed reply index. -/
def c9idx : List (JValue × JValue) :=
  match buildMessageIndex c9ms with
  | .ok i => i
  | .error _ => []

/-- Its computed header. -/
def c9hdr : String :=
  match generateChatHeader c9chat with
  | .ok h => h
  | .error _ => ""

/-- Its computed message blocks. -/
def c9blocks : List String :=
  match renderAll c9idx c9ms with
  | .ok b => b
  | .error _ => []

/-- Pure mirror of the `min` loop on strings. -/
def strMinGo (best : String) : List String → String
  | [] => best
  | y :: ys => strMinGo (if strLtB y best then y else best) ys

/-- Lexicographic minimum of a list of strings (empty list gives `""`). -/
def strMinL : List String → String
  | [] => ""
  | x :: xs => strMinGo x xs

/-- Pure mirror of the `max` loop on strings. -/
def strMaxGo (best : String) : List String → String
  | [] => best
  | y :: ys => strMaxGo (if strLtB best y then y else best) ys

/-- Lexicographic maximum of a list of strings (empty list gives `""`). -/
def strMaxL : List String → String
  | [] => ""
  | x :: xs => strMaxGo x xs

/-- Every message in the list is a JSON mapping. -/
def allObjB (ms : List JValue) : Bool :=
  ms.all fun m => match m with | .obj _ => true | _ => false

/-- Pure mirror of the date comprehension (on all-mapping inputs). -/
def datesPure : List JValue → List JValue
  | [] => []
  | m :: rest =>
    match m with
    | .obj f =>
        let d := (objGet f "date").getD .null
        if truthy d then d :: datesPure rest else datesPure rest
    | _ => datesPure rest

/-- Pure mirror of the sender selection per message: `from` when
truthy, else `actor`, kept only when truthy. -/
def sendersPure : List JValue → List JValue
  | [] => []
  | m :: rest =>
    match m with
    | .obj f =>
        let fr := (objGet f "from").getD .null
        let s := if truthy fr then fr else (objGet f "actor").getD .null
        if truthy s then s :: sendersPure rest else sendersPure rest
    | _ => sendersPure rest

/-- Pure mirror of the set accumulation over the sender list. -/
def dedupJFrom (acc : List JValue) : List JValue → List JValue
  | [] => acc
  | v :: vs => dedupJFrom (setAdd acc v) vs

/-- String-level mirror of `set.add`. -/
def setAddStr (l : List String) (v : String) : List String :=
  if l.any (· == v) then l else l ++ [v]

/-- String-level mirror of the set accumulation. -/
def dedupStrFrom (acc : List String) : List String → List String
  | [] => acc
  | v :: vs => dedupStrFrom (setAddStr acc v) vs

/-- First-occurrence deduplication of a string list (the contents of
the Python set, in insertion order). -/
def dedupStr (l : List String) : List String := dedupStrFrom [] l

/-- String-level mirror of one `sorted` insertion. -/
def insertStrPure (x : String) : List String → List String
  | [] => [x]
  | y :: ys => if strLtB x y then x :: y :: ys else y :: insertStrPure x ys

/-- String-level mirror of `sorted`. -/
def sortStrs : List String → List String
  | [] => []
  | x :: xs => insertStrPure x (sortStrs xs)

/-- Messages of the C5 witness archive: two dated, one dateless. -/
def c5ms : List JValue :=
  [.obj [("date", .str "2024-09-01")], .obj [("date", .str "2024-01-05")],
   .obj [("from", .str "A")]]

/-- The C5 witness archive. -/
def c5chat : List (String × JValue) := [("messages", .arr c5ms)]

/-- The claim's own notion, following the spec's words: the
"sender-or-actor value" of each message (the `from` field when the key
is present, else the `actor` field), collected distinctly across all
messages. -/
def specSenderOrActorValues (ms : List JValue) : List JValue :=
  dedupJFrom [] (ms.filterMap fun m => match m with
    | .obj f =>
      (match objGet f "from" with
       | some v => some v
       | none => objGet f "actor")
    | _ => none)

/-- Messages of the C6 witness archive: three truthy senders with one
duplicate. -/
def c6ms : List JValue :=
  [.obj [("from", .str "B")], .obj [("from", .str "A")], .obj [("from", .str "A")]]

/-- The C6 witness archive. -/
def c6chat : List (String × JValue) := [("messages", .arr c6ms)]

/-! ## Theorems -/

theorem strMk_append (a b : List Char) : (⟨a⟩ : String) ++ (⟨b⟩ : String) = ⟨a ++ b⟩ := rfl

theorem digCh_isDigit (n : Nat) : (digCh n).isDigit = true := by
  have hk : n % 10 < 10 := Nat.mod_lt _ (by norm_num)
  unfold digCh
  interval_cases h : n % 10 <;> decide

theorem natDecAux_zero (f : Nat) : natDecAux f 0 = [] := by
  cases f <;> rfl

theorem natDecAux_succ (f n : Nat) :
    natDecAux (f + 1) n = if n == 0 then [] else natDecAux f (n / 10) ++ [digCh n] := rfl

theorem natDec_eq_fourDig (y : Nat) (h1 : 1000 ≤ y) (h2 : y ≤ 9999) :
    natDec y = fourDig y := by
  have h10 : 100 ≤ y / 10 := (Nat.le_div_iff_mul_le (by norm_num)).mpr (by omega)
  have h100 : 10 ≤ y / 100 := (Nat.le_div_iff_mul_le (by norm_num)).mpr (by omega)
  have h1000 : 1 ≤ y / 1000 := (Nat.le_div_iff_mul_le (by norm_num)).mpr (by omega)
  have hb0 : (y == 0) = false := by simp; omega
  have hb1 : (y / 10 == 0) = false := by simp; omega
  have hb2 : (y / 100 == 0) = false := by simp; omega
  have hb3 : (y / 1000 == 0) = false := by simp; omega
  have e2 : y / 10 / 10 = y / 100 := by rw [Nat.div_div_eq_div_mul]
  have e3 : y / 100 / 10 = y / 1000 := by rw [Nat.div_div_eq_div_mul]
  have e4 : y / 1000 / 10 = 0 := by
    rw [Nat.div_div_eq_div_mul]; exact Nat.div_eq_of_lt (by omega)
  have hx : ∀ g, natDecAux (g + 1 + 1 + 1 + 1) y
      = [digCh (y / 1000), digCh (y / 100), digCh (y / 10), digCh y] := by
    intro g
    simp only [natDecAux_succ, hb0, hb1, hb2, hb3, e2, e3, e4, natDecAux_zero,
      Bool.false_eq_true, if_false, List.nil_append, List.append_assoc, List.cons_append]
  have hfuel : y - 4 + 1 + 1 + 1 + 1 = y := by omega
  have hy : natDecAux y y = [digCh (y / 1000), digCh (y / 100), digCh (y / 10), digCh y] := by
    have hg := hx (y - 4)
    rwa [hfuel] at hg
  unfold natDec fourDig
  rw [hb0, hy]
  rfl

theorem pyStrftime_isFixedForm (dt : PyDateTime) (h1 : 1000 ≤ dt.year)
    (h2 : dt.year ≤ 9999) : isFixedForm (pyStrftime dt) = true := by
  cases dt with
  | mk y mo d h mi se =>
    show isFixedForm (natDec y ++ "-" ++ twoDig mo ++ "-" ++ twoDig d ++ " "
      ++ twoDig h ++ ":" ++ twoDig mi ++ ":" ++ twoDig se) = true
    rw [natDec_eq_fourDig y h1 h2]
    simp only [fourDig, twoDig, show ("-" : String) = ⟨['-']⟩ from rfl,
      show (" " : String) = ⟨[' ']⟩ from rfl, show (":" : String) = ⟨[':']⟩ from rfl,
      strMk_append, List.cons_append, List.nil_append]
    simp [isFixedForm, digCh_isDigit]

theorem mkDateTime_year (y : Int) (mo d h mi se : Nat) (dt : PyDateTime)
    (hmk : mkDateTime y mo d h mi se = some dt) : 1 ≤ dt.year ∧ dt.year ≤ 9999 := by
  unfold mkDateTime at hmk
  split at hmk
  case isTrue hc =>
    simp only [Bool.and_eq_true, decide_eq_true_eq] at hc
    cases hmk
    simp only []
    omega
  case isFalse => exact absurd hmk (by simp)

theorem pyFromIsoformat_year (s : String) (dt : PyDateTime)
    (h : pyFromIsoformat s = some dt) : 1 ≤ dt.year ∧ dt.year ≤ 9999 := by
  unfold pyFromIsoformat at h
  repeat' split at h
  all_goals first
    | exact Option.noConfusion h
    | exact mkDateTime_year _ _ _ _ _ _ _ h

/-- C7 (corrected): the Timestamp Formatter is total and echoes exactly
the inputs whose `Z`-normalised form fails `fromisoformat` — but the
code normalises every `Z`, not only a trailing one, the accepted
grammar is CPython 3.11's (basic and week dates, single-digit times,
lax offsets), and a parsed year below 1000 prints unpadded, so the
`YYYY-MM-DD HH:MM:SS` shape is only guaranteed for years ≥ 1000 (years
never exceed 9999). -/
theorem c7_timestamp_formatter (s : String) :
    (∀ dt, pyFromIsoformat (pyReplaceZ s) = some dt →
        formatTimestampStr s = pyStrftime dt
          ∧ 1 ≤ dt.year ∧ dt.year ≤ 9999
          ∧ (1000 ≤ dt.year → isFixedForm (formatTimestampStr s) = true))
    ∧ (pyFromIsoformat (pyReplaceZ s) = none → formatTimestampStr s = s) := by
  constructor
  · intro dt hdt
    have h : formatTimestampStr s = pyStrftime dt := by
      unfold formatTimestampStr
      rw [hdt]
    have hy := pyFromIsoformat_year _ _ hdt
    exact ⟨h, hy.1, hy.2, fun h1000 => by rw [h]; exact pyStrftime_isFixedForm dt h1000 hy.2⟩
  · intro hnone
    unfold formatTimestampStr
    rw [hnone]

/-- C7 witness: a parseable input (year ≥ 1000, so the fixed form is
reached) and an unparseable one that is echoed. -/
theorem c7_timestamp_formatter_witness :
    (pyFromIsoformat (pyReplaceZ "2024-03-05T07:08:09Z") = some ⟨2024, 3, 5, 7, 8, 9⟩
      ∧ formatTimestampStr "2024-03-05T07:08:09Z" = pyStrftime ⟨2024, 3, 5, 7, 8, 9⟩
      ∧ isFixedForm (formatTimestampStr "2024-03-05T07:08:09Z") = true)
    ∧ (pyFromIsoformat (pyReplaceZ "yesterday") = none
      ∧ formatTimestampStr "yesterday" = "yesterday") :=
  ⟨⟨rfl, ((c7_timestamp_formatter "2024-03-05T07:08:09Z").1 ⟨2024, 3, 5, 7, 8, 9⟩ rfl).1,
    ((c7_timestamp_formatter "2024-03-05T07:08:09Z").1 ⟨2024, 3, 5, 7, 8, 9⟩ rfl).2.2.2
      (by decide)⟩,
   ⟨rfl, (c7_timestamp_formatter "yesterday").2 rfl⟩⟩

/-- C7 counterexample: the code replaces every `Z`, not only a trailing
one — `"2024-01-01ZZ"` does not parse under the claim's trailing-only
normalisation, yet the program returns `"2024-01-01 00:00:00"` instead
of echoing the input — and the output is not always the fixed
`YYYY-MM-DD HH:MM:SS` form: `"0024-01-01"` parses but year 24 prints
unpadded. -/
theorem c7_counterexample :
    pyReplaceZ "2024-01-01ZZ" = "2024-01-01+00:00+00:00"
    ∧ replaceTrailingZ "2024-01-01ZZ" = "2024-01-01Z+00:00"
    ∧ pyFromIsoformat (replaceTrailingZ "2024-01-01ZZ") = none
    ∧ formatTimestampStr "2024-01-01ZZ" = "2024-01-01 00:00:00"
    ∧ "2024-01-01 00:00:00" ≠ "2024-01-01ZZ"
    ∧ formatTimestampStr "0024-01-01" = "24-01-01 00:00:00"
    ∧ isFixedForm (formatTimestampStr "0024-01-01") = false :=
  ⟨rfl, rfl, rfl, rfl, by decide, rfl, rfl⟩

/-- C4: the media classifier produces one tag by fixed precedence: a
sticker media type always yields the `[Sticker <emoji>]` tag — never
`[Photo]`, whatever other fields (including `photo`) are present — and
a message matching no rule yields the empty string. -/
theorem c4_media_precedence (fields : List (String × JValue)) :
    (pyEq ((objGet fields "media_type").getD .null) (.str "sticker") = true →
      getMessageTypeInfo fields
          = .ok ("[Sticker " ++ pyStr ((objGet fields "sticker_emoji").getD (.str "")) ++ "]")
        ∧ getMessageTypeInfo fields ≠ .ok "[Photo]")
    ∧ (mediaNoRule fields = true → getMessageTypeInfo fields = .ok "") := by
  constructor
  · intro hst
    have he : getMessageTypeInfo fields
        = .ok ("[Sticker " ++ pyStr ((objGet fields "sticker_emoji").getD (.str "")) ++ "]") := by
      simp only [getMessageTypeInfo, hst, if_true]
    refine ⟨he, ?_⟩
    rw [he]
    intro hcontra
    have hs : ("[Sticker " ++ pyStr ((objGet fields "sticker_emoji").getD (.str "")) ++ "]")
        = "[Photo]" := by
      injection hcontra
    have hl := congrArg String.length hs
    simp only [String.length_append] at hl
    have h9 : ("[Sticker " : String).length = 9 := by decide
    have h1 : ("]" : String).length = 1 := by decide
    have h7 : ("[Photo]" : String).length = 7 := by decide
    omega
  · intro hnone
    simp only [mediaNoRule, Bool.and_eq_true, Bool.not_eq_true'] at hnone
    obtain ⟨⟨⟨⟨⟨⟨⟨⟨⟨⟨h1, h2⟩, h3⟩, h4⟩, h5⟩, h6⟩, h7⟩, h8⟩, h9⟩, h10⟩, h11⟩ := hnone
    simp only [getMessageTypeInfo, h1, h2, h3, h4, h5, h6, h7, h8, h9, h10, h11,
      Bool.false_eq_true, if_false]

/-- C4 witness: a message carrying both a sticker media type and a
`photo` field renders as the sticker tag, never `[Photo]`; a plain text
message matches no rule and yields the empty tag. -/
theorem c4_media_precedence_witness :
    pyEq ((objGet [("media_type", JValue.str "sticker"), ("photo", JValue.str "p.jpg")]
        "media_type").getD .null) (.str "sticker") = true
    ∧ getMessageTypeInfo [("media_type", JValue.str "sticker"), ("photo", JValue.str "p.jpg")]
        ≠ .ok "[Photo]"
    ∧ mediaNoRule [("text", JValue.str "hi")] = true
    ∧ getMessageTypeInfo [("text", JValue.str "hi")] = .ok "" :=
  ⟨rfl,
   ((c4_media_precedence [("media_type", JValue.str "sticker"),
      ("photo", JValue.str "p.jpg")]).1 rfl).2,
   rfl,
   (c4_media_precedence [("text", JValue.str "hi")]).2 rfl⟩

theorem isOkE_iff {ε α : Type} (x : Except ε α) : isOkE x = true ↔ ∃ a, x = .ok a := by
  cases x <;> simp [isOkE]

theorem exbind_ok {ε α β : Type} (a : α) (f : α → Except ε β) :
    (Except.ok a : Except ε α) >>= f = f a := rfl

theorem exbind_err {ε α β : Type} (e : ε) (f : α → Except ε β) :
    (Except.error e : Except ε α) >>= f = .error e := rfl

theorem expure_ok {ε α : Type} (a : α) : (pure a : Except ε α) = .ok a := rfl

theorem replySegment_ok_of (fields : List (String × JValue)) (idx : List (JValue × JValue))
    (h : replySafe fields idx = true) : ∃ rp, replySegment fields idx = .ok rp := by
  unfold replySafe at h
  unfold replySegment
  cases htr : truthy ((objGet fields "reply_to_message_id").getD .null) with
  | false => simp [htr]
  | true =>
    simp only [htr, Bool.not_true, Bool.false_or, Bool.and_eq_true] at h
    obtain ⟨hh, hm⟩ := h
    simp only [if_true, hh]
    cases hl : idxLookup idx ((objGet fields "reply_to_message_id").getD .null) with
    | none => simp
    | some v =>
      rw [hl] at hm
      cases v with
      | obj og =>
        rw [isOkE_iff] at hm
        obtain ⟨t, ht⟩ := hm
        refine ⟨["> **↩ Reply to " ++ pyStr (senderOf og) ++ ":** "
          ++ collapseNewlines (if t.length > 100 then pyTake t 100 ++ "..." else t), ""], ?_⟩
        simp [htr, ht, exbind_ok]
      | null => simp at hm
      | bool b => simp at hm
      | int n => simp at hm
      | str s => simp at hm
      | arr xs => simp at hm

/-- C1 (amended): rendering a JSON-mapping message record never raises
provided the fields that reach dict-key or attribute positions are
well-typed — the safety predicate `msgRenderSafe` (hashable action and
reply-reference, dict original whose text extracts, own text and media
extract).  Missing fields always satisfy it; certain malformed field
types (see the counterexample) do not. -/
theorem c1_render_total_of_safe (fields : List (String × JValue))
    (idx : List (JValue × JValue)) (h : msgRenderSafe fields idx = true) :
    isOkE (formatMessageLines (.obj fields) idx) = true := by
  unfold msgRenderSafe at h
  unfold formatMessageLines
  cases hsvc : pyEq ((objGet fields "type").getD .null) (.str "service") with
  | true =>
    rw [if_pos hsvc] at h
    simp only [hsvc, if_true]
    unfold formatServiceMessage
    simp [h, exbind_ok, isOkE]
  | false =>
    rw [if_neg (by simp [hsvc])] at h
    simp only [Bool.and_eq_true] at h
    obtain ⟨⟨hrp, htx⟩, hmi⟩ := h
    simp only [hsvc, Bool.false_eq_true, if_false]
    obtain ⟨rp, hrpe⟩ := replySegment_ok_of fields idx hrp
    rw [isOkE_iff] at htx hmi
    obtain ⟨t, ht⟩ := htx
    obtain ⟨mi, hmi⟩ := hmi
    simp [hrpe, ht, hmi, exbind_ok, isOkE]

/-- C1 counterexample: the claim promises that a malformed
(non-scalar) reply-reference degrades to a placeholder, but rendering
the mapping `\x7b"reply_to_message_id": [1]\x7d` raises `TypeError`
(the list-valued reference is unhashable in the index membership
test). -/
theorem c1_counterexample :
    formatMessageLines (.obj [("reply_to_message_id", .arr [.int 1])]) []
      = .error .typeError := by rfl

/-- C1 witness: a plain text message is safe and renders. -/
theorem c1_render_total_of_safe_witness :
    msgRenderSafe [("text", JValue.str "hi")] [] = true
    ∧ isOkE (formatMessageLines (.obj [("text", JValue.str "hi")]) []) = true :=
  ⟨rfl, c1_render_total_of_safe [("text", JValue.str "hi")] [] rfl⟩

theorem collapseNewlines_append (a b : String) :
    collapseNewlines (a ++ b) = collapseNewlines a ++ collapseNewlines b := by
  obtain ⟨as⟩ := a
  obtain ⟨bs⟩ := b
  simp [collapseNewlines, strMk_append, List.map_append]

theorem collapseNewlines_take (t : String) (n : Nat) :
    collapseNewlines (pyTake t n) = pyTake (collapseNewlines t) n := by
  obtain ⟨l⟩ := t
  simp [collapseNewlines, pyTake, List.map_take]

theorem collapseNewlines_length (t : String) : (collapseNewlines t).length = t.length := by
  obtain ⟨l⟩ := t
  simp [collapseNewlines, String.length]

theorem pyTake_length (t : String) (n : Nat) : (pyTake t n).length = min n t.length := by
  obtain ⟨l⟩ := t
  simp [pyTake, String.length]

/-- Reduction of `format_message` on a content message whose parts all
succeed. -/
theorem formatMessageLines_content (fields : List (String × JValue))
    (idx : List (JValue × JValue)) (rp : List String) (t mi : String)
    (hsvc : pyEq ((objGet fields "type").getD .null) (.str "service") = false)
    (hrp : replySegment fields idx = .ok rp)
    (ht : extractTextContent ((objGet fields "text").getD (.str "")) = .ok t)
    (hmi : getMessageTypeInfo fields = .ok mi) :
    formatMessageLines (.obj fields) idx
      = .ok (contentHead fields ++ rp ++ forwardSegment fields
          ++ bodySegment t mi ++ ["", "---", ""]) := by
  unfold formatMessageLines
  simp [hsvc, hrp, ht, hmi, exbind_ok]

/-- Reduction of the reply block on a resolvable reply. -/
theorem replySegment_resolved (fields : List (String × JValue))
    (idx : List (JValue × JValue)) (og : List (String × JValue)) (t : String)
    (hrt : truthy ((objGet fields "reply_to_message_id").getD .null) = true)
    (hrh : hashable ((objGet fields "reply_to_message_id").getD .null) = true)
    (hl : idxLookup idx ((objGet fields "reply_to_message_id").getD .null) = some (.obj og))
    (ht : extractTextContent ((objGet og "text").getD (.str "")) = .ok t) :
    replySegment fields idx
      = .ok ["> **↩ Reply to " ++ pyStr (senderOf og) ++ ":** "
          ++ collapseNewlines (if t.length > 100 then pyTake t 100 ++ "..." else t), ""] := by
  unfold replySegment
  simp [hrt, hrh, hl, ht, exbind_ok]

/-- C3: for a resolvable reply, the quoted excerpt of an original text
longer than 100 characters is exactly the first 100 (newline-collapsed)
characters followed by `...` — 103 characters in all; an original text
of at most 100 characters is quoted whole (newline-collapsed), with
nothing appended. -/
theorem c3_reply_truncation (fields : List (String × JValue))
    (idx : List (JValue × JValue)) (og : List (String × JValue)) (t : String)
    (hrt : truthy ((objGet fields "reply_to_message_id").getD .null) = true)
    (hrh : hashable ((objGet fields "reply_to_message_id").getD .null) = true)
    (hl : idxLookup idx ((objGet fields "reply_to_message_id").getD .null) = some (.obj og))
    (ht : extractTextContent ((objGet og "text").getD (.str "")) = .ok t) :
    ∃ ex, replySegment fields idx
        = .ok ["> **↩ Reply to " ++ pyStr (senderOf og) ++ ":** " ++ ex, ""]
      ∧ (t.length > 100 →
          ex = pyTake (collapseNewlines t) 100 ++ "..." ∧ ex.length = 103)
      ∧ (t.length ≤ 100 → ex = collapseNewlines t) := by
  refine ⟨collapseNewlines (if t.length > 100 then pyTake t 100 ++ "..." else t),
    replySegment_resolved fields idx og t hrt hrh hl ht, ?_, ?_⟩
  · intro hlong
    rw [if_pos hlong]
    have hx : collapseNewlines (pyTake t 100 ++ "...")
        = pyTake (collapseNewlines t) 100 ++ "..." := by
      rw [collapseNewlines_append, collapseNewlines_take]
      rfl
    refine ⟨hx, ?_⟩
    rw [hx]
    rw [String.length_append, pyTake_length, collapseNewlines_length]
    have : min 100 t.length = 100 := by omega
    rw [this]
    rfl
  · intro hshort
    rw [if_neg (by omega)]

/-- C3 witness: a 150-character original is quoted as its first 100
characters plus `...`. -/
theorem c3_reply_truncation_witness :
    truthy ((objGet [("reply_to_message_id", JValue.int 1), ("text", JValue.str "r")]
        "reply_to_message_id").getD .null) = true
    ∧ (let long := "ABCDEFGHIJABCDEFGHIJABCDEFGHIJABCDEFGHIJABCDEFGHIJABCDEFGHIJABCDEFGHIJABCDEFGHIJABCDEFGHIJABCDEFGHIJABCDEFGHIJABCDEFGHIJABCDEFGHIJABCDEFGHIJABCDEFGHIJ"
       long.length = 150
       ∧ ∃ ex, replySegment [("reply_to_message_id", JValue.int 1), ("text", JValue.str "r")]
             [(JValue.int 1, JValue.obj [("id", JValue.int 1), ("from", JValue.str "Alice"),
               ("text", JValue.str long)])]
           = .ok ["> **↩ Reply to " ++ pyStr (senderOf [("id", JValue.int 1),
               ("from", JValue.str "Alice"), ("text", JValue.str long)]) ++ ":** " ++ ex, ""]
         ∧ (long.length > 100 →
             ex = pyTake (collapseNewlines long) 100 ++ "..." ∧ ex.length = 103)
         ∧ (long.length ≤ 100 → ex = collapseNewlines long)) :=
  ⟨rfl, rfl,
   c3_reply_truncation [("reply_to_message_id", JValue.int 1), ("text", JValue.str "r")]
     [(JValue.int 1, JValue.obj [("id", JValue.int 1), ("from", JValue.str "Alice"),
       ("text", JValue.str "ABCDEFGHIJABCDEFGHIJABCDEFGHIJABCDEFGHIJABCDEFGHIJABCDEFGHIJABCDEFGHIJABCDEFGHIJABCDEFGHIJABCDEFGHIJABCDEFGHIJABCDEFGHIJABCDEFGHIJABCDEFGHIJABCDEFGHIJ")])]
     [("id", JValue.int 1), ("from", JValue.str "Alice"),
       ("text", JValue.str "ABCDEFGHIJABCDEFGHIJABCDEFGHIJABCDEFGHIJABCDEFGHIJABCDEFGHIJABCDEFGHIJABCDEFGHIJABCDEFGHIJABCDEFGHIJABCDEFGHIJABCDEFGHIJABCDEFGHIJABCDEFGHIJABCDEFGHIJ")]
     "ABCDEFGHIJABCDEFGHIJABCDEFGHIJABCDEFGHIJABCDEFGHIJABCDEFGHIJABCDEFGHIJABCDEFGHIJABCDEFGHIJABCDEFGHIJABCDEFGHIJABCDEFGHIJABCDEFGHIJABCDEFGHIJABCDEFGHIJ"
     rfl rfl rfl rfl⟩

/-- C2 (amended): under well-typed hypotheses, a content message
carrying a (hashable) reply-reference renders with the block-quoted
reply line exactly when the reference is truthy **and** its identifier
is a key of the Reply Index; otherwise — unresolvable identifier or
falsy reference (e.g. the integer 0) — the block is omitted entirely
and no error occurs. -/
theorem c2_reply_block_iff (fields : List (String × JValue)) (idx : List (JValue × JValue))
    (rid : JValue) (t mi : String)
    (hsvc : pyEq ((objGet fields "type").getD .null) (.str "service") = false)
    (hrid : objGet fields "reply_to_message_id" = some rid)
    (hrh : hashable rid = true)
    (ht : extractTextContent ((objGet fields "text").getD (.str "")) = .ok t)
    (hmi : getMessageTypeInfo fields = .ok mi)
    (hog : ∀ v, idxLookup idx rid = some v →
        ∃ og, v = .obj og
          ∧ isOkE (extractTextContent ((objGet og "text").getD (.str ""))) = true) :
    ∃ rp, formatMessageLines (.obj fields) idx
        = .ok (contentHead fields ++ rp ++ forwardSegment fields
            ++ bodySegment t mi ++ ["", "---", ""])
      ∧ ((truthy rid && idxMemB idx rid) = true →
          ∃ os ex, rp = ["> **↩ Reply to " ++ os ++ ":** " ++ ex, ""])
      ∧ ((truthy rid && idxMemB idx rid) = false → rp = []) := by
  have hgd : (objGet fields "reply_to_message_id").getD .null = rid := by rw [hrid]; rfl
  cases htr : truthy rid with
  | false =>
    have hrp : replySegment fields idx = .ok [] := by
      unfold replySegment
      rw [hgd]
      simp [htr]
    exact ⟨[], formatMessageLines_content fields idx [] t mi hsvc hrp ht hmi,
      by simp [htr], fun _ => rfl⟩
  | true =>
    cases hl : idxLookup idx rid with
    | none =>
      have hrp : replySegment fields idx = .ok [] := by
        unfold replySegment
        rw [hgd]
        simp [htr, hrh, hl]
      have hmem : idxMemB idx rid = false := by simp [idxMemB, hl]
      exact ⟨[], formatMessageLines_content fields idx [] t mi hsvc hrp ht hmi,
        by simp [hmem], fun _ => rfl⟩
    | some v =>
      obtain ⟨og, hv, hok⟩ := hog v hl
      rw [hv] at hl
      rw [isOkE_iff] at hok
      obtain ⟨t0, ht0⟩ := hok
      have hrp := replySegment_resolved fields idx og t0 (hgd ▸ htr) (hgd ▸ hrh)
        (by rw [hgd]; exact hl) ht0
      have hmem : idxMemB idx rid = true := by simp [idxMemB, hl]
      refine ⟨_, formatMessageLines_content fields idx _ t mi hsvc hrp ht hmi, ?_, ?_⟩
      · intro _
        exact ⟨pyStr (senderOf og),
          collapseNewlines (if t0.length > 100 then pyTake t0 100 ++ "..." else t0), rfl⟩
      · intro hcontra
        rw [hmem] at hcontra
        simp at hcontra

/-- C2 counterexample: the identifier `0` **is** a key of the Reply
Index, yet a message whose reply-reference is `0` (falsy) renders with
no reply block — refuting the claimed "if and only if the identifier is
a key of the index". -/
theorem c2_counterexample :
    idxMemB [(JValue.int 0, JValue.obj [("id", JValue.int 0)])] (.int 0) = true
    ∧ formatMessageLines
        (.obj [("reply_to_message_id", JValue.int 0), ("text", JValue.str "hi")])
        [(JValue.int 0, JValue.obj [("id", JValue.int 0)])]
      = .ok ["### Unknown", "** | Message #", "", "hi", "", "---", ""]
    ∧ (["### Unknown", "** | Message #", "", "hi", "", "---", ""].all
        fun l => !(strStartsWith l "> **↩")) = true :=
  ⟨rfl, rfl, rfl⟩

/-- C2 witness: a truthy, resolvable reference gets a reply block; a
truthy, unresolvable one gets none and renders without error. -/
theorem c2_reply_block_iff_witness :
    (∃ rp, formatMessageLines
        (.obj [("reply_to_message_id", JValue.int 1), ("text", JValue.str "x")])
        [(JValue.int 1, JValue.obj [("id", JValue.int 1), ("text", JValue.str "orig")])]
        = .ok (contentHead [("reply_to_message_id", JValue.int 1), ("text", JValue.str "x")]
            ++ rp
            ++ forwardSegment [("reply_to_message_id", JValue.int 1), ("text", JValue.str "x")]
            ++ bodySegment "x" "" ++ ["", "---", ""])
      ∧ ((truthy (JValue.int 1)
            && idxMemB [(JValue.int 1, JValue.obj [("id", JValue.int 1),
                ("text", JValue.str "orig")])] (JValue.int 1)) = true →
          ∃ os ex, rp = ["> **↩ Reply to " ++ os ++ ":** " ++ ex, ""])
      ∧ ((truthy (JValue.int 1)
            && idxMemB [(JValue.int 1, JValue.obj [("id", JValue.int 1),
                ("text", JValue.str "orig")])] (JValue.int 1)) = false → rp = []))
    ∧ (∃ rp, formatMessageLines
        (.obj [("reply_to_message_id", JValue.int 9), ("text", JValue.str "x")]) []
        = .ok (contentHead [("reply_to_message_id", JValue.int 9), ("text", JValue.str "x")]
            ++ rp
            ++ forwardSegment [("reply_to_message_id", JValue.int 9), ("text", JValue.str "x")]
            ++ bodySegment "x" "" ++ ["", "---", ""])
      ∧ ((truthy (JValue.int 9) && idxMemB [] (JValue.int 9)) = true →
          ∃ os ex, rp = ["> **↩ Reply to " ++ os ++ ":** " ++ ex, ""])
      ∧ ((truthy (JValue.int 9) && idxMemB [] (JValue.int 9)) = false → rp = [])) :=
  ⟨c2_reply_block_iff [("reply_to_message_id", JValue.int 1), ("text", JValue.str "x")]
      [(JValue.int 1, JValue.obj [("id", JValue.int 1), ("text", JValue.str "orig")])]
      (JValue.int 1) "x" "" rfl rfl rfl rfl rfl
      (by
        intro v hv
        rw [show idxLookup [(JValue.int 1, JValue.obj [("id", JValue.int 1),
            ("text", JValue.str "orig")])] (JValue.int 1)
          = some (JValue.obj [("id", JValue.int 1), ("text", JValue.str "orig")]) from rfl] at hv
        injection hv with hv2
        exact ⟨[("id", JValue.int 1), ("text", JValue.str "orig")], hv2.symm, rfl⟩),
   c2_reply_block_iff [("reply_to_message_id", JValue.int 9), ("text", JValue.str "x")] []
      (JValue.int 9) "x" "" rfl rfl rfl rfl rfl
      (by intro v hv; simp [idxLookup] at hv)⟩

/-- C10: for a content message without a `from` key, the heading names
the `actor` value when that key is present and the literal `Unknown`
otherwise; the reply quote derives the original sender by the same
`from` → `actor` → `Unknown` chain (`senderOf`). -/
theorem c10_sender_fallback (fields : List (String × JValue)) (idx : List (JValue × JValue))
    (hsvc : pyEq ((objGet fields "type").getD .null) (.str "service") = false)
    (hfrom : objGet fields "from" = none) :
    senderOf fields = (objGet fields "actor").getD (.str "Unknown")
    ∧ (∀ lines, formatMessageLines (.obj fields) idx = .ok lines →
        lines.head? = some ("### " ++ pyStr ((objGet fields "actor").getD (.str "Unknown"))))
    ∧ (∀ og t, objGet og "from" = none →
        truthy ((objGet fields "reply_to_message_id").getD .null) = true →
        hashable ((objGet fields "reply_to_message_id").getD .null) = true →
        idxLookup idx ((objGet fields "reply_to_message_id").getD .null) = some (.obj og) →
        extractTextContent ((objGet og "text").getD (.str "")) = .ok t →
        replySegment fields idx = .ok ["> **↩ Reply to "
          ++ pyStr ((objGet og "actor").getD (.str "Unknown")) ++ ":** "
          ++ collapseNewlines (if t.length > 100 then pyTake t 100 ++ "..." else t), ""]) := by
  have hsd : senderOf fields = (objGet fields "actor").getD (.str "Unknown") := by
    unfold senderOf
    rw [hfrom]
  refine ⟨hsd, ?_, ?_⟩
  · intro lines hml
    unfold formatMessageLines at hml
    simp only [hsvc, Bool.false_eq_true, if_false] at hml
    cases hrp : replySegment fields idx with
    | error e => rw [hrp] at hml; simp [exbind_err] at hml
    | ok rp =>
      rw [hrp] at hml
      simp only [exbind_ok] at hml
      cases htx : extractTextContent ((objGet fields "text").getD (.str "")) with
      | error e => rw [htx] at hml; simp [exbind_err] at hml
      | ok t =>
        rw [htx] at hml
        simp only [exbind_ok] at hml
        cases hmi : getMessageTypeInfo fields with
        | error e => rw [hmi] at hml; simp [exbind_err] at hml
        | ok mi =>
          rw [hmi] at hml
          simp only [exbind_ok] at hml
          injection hml with h
          rw [← h]
          simp [contentHead, hsd]
  · intro og t hfog htr hrh hl ht
    have hres := replySegment_resolved fields idx og t htr hrh hl ht
    have hsog : senderOf og = (objGet og "actor").getD (.str "Unknown") := by
      unfold senderOf
      rw [hfog]
    rw [hsog] at hres
    exact hres

/-- C10 witness: a message with only an `actor` field is headed by that
actor. -/
theorem c10_sender_fallback_witness :
    objGet [("actor", JValue.str "Bot")] "from" = none
    ∧ formatMessageLines (.obj [("actor", JValue.str "Bot")]) []
        = .ok ["### Bot", "** | Message #", "", "*[Empty message]*", "", "---", ""]
    ∧ (["### Bot", "** | Message #", "", "*[Empty message]*", "", "---", ""].head?
        = some ("### "
          ++ pyStr ((objGet [("actor", JValue.str "Bot")] "actor").getD (.str "Unknown")))) :=
  ⟨rfl, rfl,
   (c10_sender_fallback [("actor", JValue.str "Bot")] [] rfl rfl).2.1
     ["### Bot", "** | Message #", "", "*[Empty message]*", "", "---", ""] rfl⟩

theorem strAppend_assoc : ∀ (a b c : String), (a ++ b) ++ c = a ++ (b ++ c)
  | ⟨as⟩, ⟨bs⟩, ⟨cs⟩ => congrArg String.mk (List.append_assoc as bs cs)

theorem asStrList_append_ok (ps qs : List JValue) (ss ts : List String)
    (hp : asStrList ps = .ok ss) (hq : asStrList qs = .ok ts) :
    asStrList (ps ++ qs) = .ok (ss ++ ts) := by
  induction ps generalizing ss with
  | nil =>
    unfold asStrList at hp
    injection hp with h
    rw [← h]
    simpa using hq
  | cons p ps ih =>
    cases p with
    | str a =>
      unfold asStrList at hp
      cases hrest : asStrList ps with
      | error e => rw [hrest] at hp; simp [exbind_err] at hp
      | ok ss0 =>
        rw [hrest] at hp
        simp only [exbind_ok] at hp
        injection hp with h
        rw [← h]
        show asStrList (JValue.str a :: (ps ++ qs)) = .ok (a :: ss0 ++ ts)
        unfold asStrList
        rw [ih ss0 hrest]
        rfl
    | null => simp [asStrList] at hp
    | bool b => simp [asStrList] at hp
    | int n => simp [asStrList] at hp
    | arr xs => simp [asStrList] at hp
    | obj f => simp [asStrList] at hp

theorem strConcat_append (ss ts : List String) :
    strConcat (ss ++ ts) = strConcat ss ++ strConcat ts := by
  induction ss with
  | nil =>
    show strConcat ts = "" ++ strConcat ts
    obtain ⟨l⟩ := strConcat ts
    rfl
  | cons s ss ih =>
    show s ++ strConcat (ss ++ ts) = (s ++ strConcat ss) ++ strConcat ts
    rw [ih, strAppend_assoc]

theorem extract_pieces_of_spans (items : List JValue) (ts : List String)
    (h : spanRenderAll items = .ok ts) :
    ∃ pieces ss, extractPieces items = .ok pieces ∧ asStrList pieces = .ok ss
      ∧ strConcat ss = strConcat ts := by
  induction items generalizing ts with
  | nil =>
    unfold spanRenderAll at h
    injection h with h
    exact ⟨[], [], rfl, rfl, by rw [← h]⟩
  | cons x xs ih =>
    unfold spanRenderAll at h
    cases hx : spanRender x with
    | error e => rw [hx] at h; simp [exbind_err] at h
    | ok s =>
      rw [hx] at h
      simp only [exbind_ok] at h
      cases hxs : spanRenderAll xs with
      | error e => rw [hxs] at h; simp [exbind_err] at h
      | ok rest =>
        rw [hxs] at h
        simp only [exbind_ok] at h
        injection h with h
        unfold spanRender at hx
        cases hps : itemPieces x with
        | error e => rw [hps] at hx; simp [exbind_err] at hx
        | ok ps =>
          rw [hps] at hx
          simp only [exbind_ok] at hx
          cases hss : asStrList ps with
          | error e => rw [hss] at hx; simp [exbind_err] at hx
          | ok ss =>
            rw [hss] at hx
            simp only [exbind_ok] at hx
            injection hx with hx
            obtain ⟨pieces2, ss2, h1, h2, h3⟩ := ih rest hxs
            refine ⟨ps ++ pieces2, ss ++ ss2, ?_, asStrList_append_ok ps pieces2 ss ss2 hss h2, ?_⟩
            · unfold extractPieces
              rw [hps, h1]
              rfl
            · rw [strConcat_append, hx, h3, ← h]
              rfl

/-- C8: whenever every span of a list renders, the extractor's output
on that list is exactly the concatenation, in input order and with no
separators, of the per-span rendered texts (`spanRender`; a skipped
span's rendered text is empty). -/
theorem c8_extract_concat (items : List JValue) (ts : List String)
    (h : spanRenderAll items = .ok ts) :
    extractTextContent (.arr items) = .ok (strConcat ts) := by
  obtain ⟨pieces, ss, h1, h2, h3⟩ := extract_pieces_of_spans items ts h
  show (do
    let pieces ← extractPieces items
    let ss ← asStrList pieces
    Except.ok (strConcat ss)) = Except.ok (strConcat ts)
  rw [h1]
  simp only [exbind_ok]
  rw [h2]
  simp only [exbind_ok]
  rw [h3]

/-- C8 witness: three spans (plain, bold, skipped integer) concatenate
in order. -/
theorem c8_extract_concat_witness :
    spanRenderAll [JValue.str "a", JValue.obj [("type", JValue.str "bold"),
        ("text", JValue.str "b")], JValue.int 7] = .ok ["a", "**b**", ""]
    ∧ extractTextContent (.arr [JValue.str "a", JValue.obj [("type", JValue.str "bold"),
        ("text", JValue.str "b")], JValue.int 7]) = .ok (strConcat ["a", "**b**", ""]) :=
  ⟨rfl, c8_extract_concat [JValue.str "a", JValue.obj [("type", JValue.str "bold"),
      ("text", JValue.str "b")], JValue.int 7] ["a", "**b**", ""] rfl⟩

theorem renderAll_spec (idx : List (JValue × JValue)) (ms : List JValue)
    (blocks : List String) (h : renderAll idx ms = .ok blocks) :
    blocks.length = ms.length
    ∧ (∀ i m, ms.get? i = some m →
        ∃ b, formatMessage m idx = .ok b ∧ blocks.get? i = some b) := by
  induction ms generalizing blocks with
  | nil =>
    unfold renderAll at h
    injection h with h
    rw [← h]
    exact ⟨rfl, by intro i m hm; simp at hm⟩
  | cons m ms ih =>
    unfold renderAll at h
    cases hb : formatMessage m idx with
    | error e => rw [hb] at h; simp [exbind_err] at h
    | ok b =>
      rw [hb] at h
      simp only [exbind_ok] at h
      cases hmore : renderAll idx ms with
      | error e => rw [hmore] at h; simp [exbind_err] at h
      | ok more =>
        rw [hmore] at h
        simp only [exbind_ok] at h
        injection h with h
        obtain ⟨hlen, hpt⟩ := ih more hmore
        rw [← h]
        constructor
        · simp [hlen]
        · intro i mm hm
          cases i with
          | zero =>
            simp only [List.get?] at hm
            injection hm with hm
            rw [← hm]
            exact ⟨b, hb, rfl⟩
          | succ j =>
            simp only [List.get?] at hm ⊢
            exact hpt j mm hm

/-- C9: for an archive whose header, index and per-message renderings
all succeed, the output parts are exactly the header followed by one
block per input message, in input order (block `i` renders message
`i`), with no re-sorting. -/
theorem c9_blocks (chat : List (String × JValue)) (ms : List JValue)
    (idx : List (JValue × JValue)) (hdr : String) (blocks : List String)
    (hm : (objGet chat "messages").getD (.arr []) = .arr ms)
    (hidx : buildMessageIndex ms = .ok idx)
    (hh : generateChatHeader chat = .ok hdr)
    (hb : renderAll idx ms = .ok blocks) :
    convertToMarkdownParts chat = .ok (hdr :: blocks)
    ∧ blocks.length = ms.length
    ∧ (∀ i m, ms.get? i = some m →
        ∃ b, formatMessage m idx = .ok b ∧ blocks.get? i = some b) := by
  obtain ⟨hlen, hpt⟩ := renderAll_spec idx ms blocks hb
  refine ⟨?_, hlen, hpt⟩
  unfold convertToMarkdownParts
  rw [hh]
  simp only [exbind_ok]
  rw [hm]
  show (do
    let iterMsgs ← pyIter (.arr ms)
    let messageIndex ← buildMessageIndex iterMsgs
    let blocks2 ← renderAll messageIndex iterMsgs
    Except.ok (hdr :: blocks2)) = Except.ok (hdr :: blocks)
  rw [show pyIter (.arr ms) = .ok ms from rfl]
  simp only [exbind_ok]
  rw [hidx]
  simp only [exbind_ok]
  rw [hb]
  rfl

/-- C9 witness: on a two-message archive (one content, one service),
the output is the header plus exactly two blocks, in order. -/
theorem c9_blocks_witness :
    buildMessageIndex c9ms = .ok c9idx
    ∧ renderAll c9idx c9ms = .ok c9blocks
    ∧ convertToMarkdownParts c9chat = .ok (c9hdr :: c9blocks)
    ∧ c9blocks.length = c9ms.length :=
  ⟨rfl, rfl,
   (c9_blocks c9chat c9ms c9idx c9hdr c9blocks rfl rfl rfl rfl).1,
   (c9_blocks c9chat c9ms c9idx c9hdr c9blocks rfl rfl rfl rfl).2.1⟩

theorem lexLt_irrefl : ∀ l, lexLt l l = false
  | [] => rfl
  | a :: as => by
      rw [lexLt, if_neg (lt_irrefl a), if_neg (lt_irrefl a)]
      exact lexLt_irrefl as

theorem lexLt_asymm : ∀ a b, lexLt a b = true → lexLt b a = false
  | [], [] => by simp [lexLt]
  | [], _ :: _ => fun _ => rfl
  | _ :: _, [] => by simp [lexLt]
  | a :: as, b :: bs => by
      intro h
      rw [lexLt] at h ⊢
      by_cases hab : a < b
      · rw [if_neg (lt_asymm hab), if_pos hab]
      · rw [if_neg hab] at h
        by_cases hba : b < a
        · rw [if_pos hba] at h
          exact absurd h (by simp)
        · rw [if_neg hba] at h
          rw [if_neg hba, if_neg hab]
          exact lexLt_asymm as bs h

theorem lexLt_trans : ∀ a b c, lexLt a b = true → lexLt b c = true → lexLt a c = true
  | [], [], _ => by simp [lexLt]
  | [], _ :: _, [] => fun _ h => by simp [lexLt] at h
  | [], _ :: _, _ :: _ => fun _ _ => rfl
  | _ :: _, [], _ => fun h => by simp [lexLt] at h
  | _ :: _, _ :: _, [] => fun _ h => by simp [lexLt] at h
  | a :: as, b :: bs, c :: cs => by
      intro h1 h2
      rw [lexLt] at h1 h2 ⊢
      by_cases hab : a < b
      · by_cases hbc : b < c
        · rw [if_pos (lt_trans hab hbc)]
        · rw [if_neg hbc] at h2
          by_cases hcb : c < b
          · rw [if_pos hcb] at h2
            exact absurd h2 (by simp)
          · have hbceq : b = c := le_antisymm (not_lt.mp hcb) (not_lt.mp hbc)
            rw [if_pos (hbceq ▸ hab)]
      · rw [if_neg hab] at h1
        by_cases hba : b < a
        · rw [if_pos hba] at h1
          exact absurd h1 (by simp)
        · rw [if_neg hba] at h1
          have habeq : a = b := le_antisymm (not_lt.mp hba) (not_lt.mp hab)
          subst habeq
          by_cases hac : a < c
          · rw [if_pos hac]
          · rw [if_neg hac] at h2 ⊢
            by_cases hca : c < a
            · rw [if_pos hca] at h2
              exact absurd h2 (by simp)
            · rw [if_neg hca] at h2 ⊢
              exact lexLt_trans as bs cs h1 h2

theorem lexLt_connex : ∀ a b, lexLt a b = false → lexLt b a = false → a = b
  | [], [] => fun _ _ => rfl
  | [], _ :: _ => fun h _ => by simp [lexLt] at h
  | _ :: _, [] => fun _ h => by simp [lexLt] at h
  | a :: as, b :: bs => by
      intro h1 h2
      rw [lexLt] at h1 h2
      by_cases hab : a < b
      · rw [if_pos hab] at h1
        exact absurd h1 (by simp)
      · rw [if_neg hab] at h1
        by_cases hba : b < a
        · rw [if_pos hba] at h2
          exact absurd h2 (by simp)
        · rw [if_neg hba] at h1
          rw [if_neg hba, if_neg hab] at h2
          have htail := lexLt_connex as bs h1 h2
          have hchar : a = b := le_antisymm (not_lt.mp hba) (not_lt.mp hab)
          rw [hchar, htail]

theorem strLeB_refl (a : String) : strLeB a a = true := by
  simp [strLeB, strLtB, lexLt_irrefl]

theorem strLeB_of_lt (a b : String) (h : strLtB a b = true) : strLeB a b = true := by
  simp only [strLeB, strLtB] at *
  rw [lexLt_asymm _ _ h]
  rfl

theorem strLeB_of_not_lt (a b : String) (h : strLtB a b = false) : strLeB b a = true := by
  simp only [strLeB, strLtB] at *
  rw [h]
  rfl

theorem strLeB_trans (a b c : String) (h1 : strLeB a b = true) (h2 : strLeB b c = true) :
    strLeB a c = true := by
  simp only [strLeB, strLtB, Bool.not_eq_true'] at *
  by_cases hca : lexLt c.data a.data = true
  · by_cases hbc : lexLt b.data c.data = true
    · rw [lexLt_trans _ _ _ hbc hca] at h1
      exact absurd h1 (by simp)
    · have hbc2 : lexLt b.data c.data = false := by simpa using hbc
      have heq := lexLt_connex _ _ hbc2 h2
      rw [← heq] at hca
      rw [hca] at h1
      exact absurd h1 (by simp)
  · simpa using hca

theorem pyMinGo_str : ∀ (ys : List String) (best : String),
    pyMinGo (.str best) (ys.map .str) = .ok (.str (strMinGo best ys))
  | [], _ => rfl
  | y :: ys, best => by
      show pyMinGo (.str best) (.str y :: ys.map .str) = _
      rw [pyMinGo, show pyLt (.str y) (.str best) = .ok (strLtB y best) from rfl]
      simp only [exbind_ok]
      rw [show (if strLtB y best then JValue.str y else JValue.str best)
          = .str (if strLtB y best then y else best) from (apply_ite JValue.str _ y best).symm]
      rw [strMinGo]
      exact pyMinGo_str ys _

theorem pyMaxGo_str : ∀ (ys : List String) (best : String),
    pyMaxGo (.str best) (ys.map .str) = .ok (.str (strMaxGo best ys))
  | [], _ => rfl
  | y :: ys, best => by
      show pyMaxGo (.str best) (.str y :: ys.map .str) = _
      rw [pyMaxGo, show pyLt (.str best) (.str y) = .ok (strLtB best y) from rfl]
      simp only [exbind_ok]
      rw [show (if strLtB best y then JValue.str y else JValue.str best)
          = .str (if strLtB best y then y else best) from (apply_ite JValue.str _ y best).symm]
      rw [strMaxGo]
      exact pyMaxGo_str ys _

theorem strMinGo_mem : ∀ (ys : List String) (best : String),
    strMinGo best ys = best ∨ strMinGo best ys ∈ ys
  | [], _ => Or.inl rfl
  | y :: ys, best => by
      rw [strMinGo]
      rcases strMinGo_mem ys (if strLtB y best then y else best) with h | h
      · rw [h]
        by_cases hc : strLtB y best = true
        · rw [if_pos hc]
          exact Or.inr (List.mem_cons_self y ys)
        · rw [if_neg hc]
          exact Or.inl rfl
      · exact Or.inr (List.mem_cons_of_mem y h)

theorem strMinGo_le : ∀ (ys : List String) (best : String),
    strLeB (strMinGo best ys) best = true
    ∧ ∀ z ∈ ys, strLeB (strMinGo best ys) z = true
  | [], best => ⟨strLeB_refl best, by intro z hz; simp at hz⟩
  | y :: ys, best => by
      rw [strMinGo]
      obtain ⟨h1, h2⟩ := strMinGo_le ys (if strLtB y best then y else best)
      have hstepBest : strLeB (if strLtB y best then y else best) best = true := by
        by_cases hc : strLtB y best = true
        · rw [if_pos hc]
          exact strLeB_of_lt y best hc
        · rw [if_neg hc]
          exact strLeB_refl best
      have hstepY : strLeB (if strLtB y best then y else best) y = true := by
        by_cases hc : strLtB y best = true
        · rw [if_pos hc]
          exact strLeB_refl y
        · rw [if_neg hc]
          exact strLeB_of_not_lt y best (by simpa using hc)
      refine ⟨strLeB_trans _ _ _ h1 hstepBest, ?_⟩
      intro z hz
      rcases List.mem_cons.mp hz with rfl | hz2
      · exact strLeB_trans _ _ _ h1 hstepY
      · exact h2 z hz2

theorem strMaxGo_mem : ∀ (ys : List String) (best : String),
    strMaxGo best ys = best ∨ strMaxGo best ys ∈ ys
  | [], _ => Or.inl rfl
  | y :: ys, best => by
      rw [strMaxGo]
      rcases strMaxGo_mem ys (if strLtB best y then y else best) with h | h
      · rw [h]
        by_cases hc : strLtB best y = true
        · rw [if_pos hc]
          exact Or.inr (List.mem_cons_self y ys)
        · rw [if_neg hc]
          exact Or.inl rfl
      · exact Or.inr (List.mem_cons_of_mem y h)

theorem strMaxGo_ge : ∀ (ys : List String) (best : String),
    strLeB best (strMaxGo best ys) = true
    ∧ ∀ z ∈ ys, strLeB z (strMaxGo best ys) = true
  | [], best => ⟨strLeB_refl best, by intro z hz; simp at hz⟩
  | y :: ys, best => by
      rw [strMaxGo]
      obtain ⟨h1, h2⟩ := strMaxGo_ge ys (if strLtB best y then y else best)
      have hstepBest : strLeB best (if strLtB best y then y else best) = true := by
        by_cases hc : strLtB best y = true
        · rw [if_pos hc]
          exact strLeB_of_lt best y hc
        · rw [if_neg hc]
          exact strLeB_refl best
      have hstepY : strLeB y (if strLtB best y then y else best) = true := by
        by_cases hc : strLtB best y = true
        · rw [if_pos hc]
          exact strLeB_refl y
        · rw [if_neg hc]
          exact strLeB_of_not_lt best y (by simpa using hc)
      refine ⟨strLeB_trans _ _ _ hstepBest h1, ?_⟩
      intro z hz
      rcases List.mem_cons.mp hz with rfl | hz2
      · exact strLeB_trans _ _ _ hstepY h1
      · exact h2 z hz2

theorem collectDates_eq (ms : List JValue) (h : allObjB ms = true) :
    collectDates ms = .ok (datesPure ms) := by
  induction ms with
  | nil => rfl
  | cons m rest ih =>
    simp only [allObjB, List.all_cons, Bool.and_eq_true] at h
    obtain ⟨hm, hrest⟩ := h
    cases m with
    | obj f =>
      rw [collectDates, datesPure]
      rw [show pyGetOnValue (.obj f) "date" = .ok ((objGet f "date").getD .null) from rfl]
      simp only [exbind_ok]
      rw [ih hrest]
      simp only [exbind_ok]
    | null => simp at hm
    | bool b => simp at hm
    | int n => simp at hm
    | str s => simp at hm
    | arr xs => simp at hm

theorem collectParticipantsFrom_eq (ms : List JValue) (h : allObjB ms = true)
    (hh : ∀ v ∈ sendersPure ms, hashable v = true) :
    ∀ acc, collectParticipantsFrom acc ms = .ok (dedupJFrom acc (sendersPure ms)) := by
  induction ms with
  | nil => intro acc; rfl
  | cons m rest ih =>
    intro acc
    simp only [allObjB, List.all_cons, Bool.and_eq_true] at h
    obtain ⟨hm, hrest⟩ := h
    cases m with
    | obj f =>
      rw [collectParticipantsFrom]
      rw [show pyGetOnValue (.obj f) "from" = .ok ((objGet f "from").getD .null) from rfl]
      simp only [exbind_ok]
      rw [sendersPure]
      have hh2 : ∀ v ∈ sendersPure (JValue.obj f :: rest), hashable v = true := hh
      rw [sendersPure] at hh2
      by_cases hfr : truthy ((objGet f "from").getD .null) = true
      · simp only [hfr, if_true, expure_ok, exbind_ok] at hh2 ⊢
        have hhash := hh2 _ (List.mem_cons_self _ _)
        rw [if_pos hhash]
        rw [dedupJFrom]
        exact ih hrest (fun v hv => hh2 v (List.mem_cons_of_mem _ hv)) _
      · simp only [hfr, Bool.false_eq_true, if_false] at hh2 ⊢
        rw [show pyGetOnValue (.obj f) "actor" = .ok ((objGet f "actor").getD .null) from rfl]
        simp only [exbind_ok]
        by_cases hs : truthy ((objGet f "actor").getD .null) = true
        · simp only [hs, if_true] at hh2 ⊢
          have hhash := hh2 _ (List.mem_cons_self _ _)
          rw [if_pos hhash]
          rw [dedupJFrom]
          exact ih hrest (fun v hv => hh2 v (List.mem_cons_of_mem _ hv)) _
        · simp only [hs, Bool.false_eq_true, if_false] at hh2 ⊢
          exact ih hrest hh2 _
    | null => simp at hm
    | bool b => simp at hm
    | int n => simp at hm
    | str s => simp at hm
    | arr xs => simp at hm

theorem setAdd_str (l : List String) (v : String) :
    setAdd (l.map .str) (.str v) = (setAddStr l v).map .str := by
  unfold setAdd setAddStr
  have hcond : ∀ l2 : List String,
      ((List.map JValue.str l2).any fun x => pyEq x (JValue.str v)) = l2.any (· == v) := by
    intro l2
    induction l2 with
    | nil => rfl
    | cons a as ih =>
      show (pyEq (.str a) (.str v) || _) = ((a == v) || _)
      rw [ih]
      rfl
  rw [hcond]
  by_cases hc : l.any (· == v) = true
  · rw [if_pos hc, if_pos hc]
  · rw [if_neg hc, if_neg hc]
    simp

theorem dedupJFrom_str : ∀ (l acc : List String),
    dedupJFrom (acc.map .str) (l.map .str) = (dedupStrFrom acc l).map .str
  | [], _ => rfl
  | v :: vs, acc => by
      show dedupJFrom (setAdd (acc.map .str) (.str v)) (vs.map .str) = _
      rw [setAdd_str, dedupStrFrom]
      exact dedupJFrom_str vs (setAddStr acc v)

theorem setAddStr_mem (l : List String) (v x : String) :
    x ∈ setAddStr l v ↔ x ∈ l ∨ x = v := by
  unfold setAddStr
  by_cases hc : l.any (· == v) = true
  · rw [if_pos hc]
    rw [List.any_eq_true] at hc
    obtain ⟨a, ha, hav⟩ := hc
    have : a = v := by simpa using hav
    subst this
    constructor
    · intro h
      exact Or.inl h
    · intro h
      rcases h with h | h
      · exact h
      · rw [h]; exact ha
  · rw [if_neg hc]
    simp

theorem setAddStr_nodup (l : List String) (v : String) (h : l.Nodup) :
    (setAddStr l v).Nodup := by
  unfold setAddStr
  by_cases hc : l.any (· == v) = true
  · rw [if_pos hc]; exact h
  · rw [if_neg hc]
    have hv : v ∉ l := by
      intro hmem
      apply hc
      rw [List.any_eq_true]
      exact ⟨v, hmem, by simp⟩
    simp [List.nodup_append, h, hv]

theorem dedupStrFrom_nodup : ∀ (l acc : List String), acc.Nodup → (dedupStrFrom acc l).Nodup
  | [], _, h => h
  | v :: vs, acc, h => dedupStrFrom_nodup vs (setAddStr acc v) (setAddStr_nodup acc v h)

theorem dedupStrFrom_mem : ∀ (l acc : List String) (x : String),
    x ∈ dedupStrFrom acc l ↔ x ∈ acc ∨ x ∈ l
  | [], acc, x => by simp [dedupStrFrom]
  | v :: vs, acc, x => by
      rw [dedupStrFrom, dedupStrFrom_mem vs (setAddStr acc v) x, setAddStr_mem]
      simp only [List.mem_cons]
      tauto

theorem dedupStr_nodup (l : List String) : (dedupStr l).Nodup :=
  dedupStrFrom_nodup l [] List.nodup_nil

theorem dedupStr_mem (l : List String) (x : String) : x ∈ dedupStr l ↔ x ∈ l := by
  rw [dedupStr, dedupStrFrom_mem]
  simp

theorem pyInsertSorted_str : ∀ (l : List String) (x : String),
    pyInsertSorted (.str x) (l.map .str) = .ok ((insertStrPure x l).map .str)
  | [], _ => rfl
  | y :: ys, x => by
      show pyInsertSorted (.str x) (.str y :: ys.map .str) = _
      rw [pyInsertSorted, show pyLt (.str x) (.str y) = .ok (strLtB x y) from rfl]
      simp only [exbind_ok]
      rw [insertStrPure]
      by_cases hc : strLtB x y = true
      · rw [if_pos hc, if_pos hc]
        rfl
      · rw [if_neg hc, if_neg hc]
        rw [pyInsertSorted_str ys x]
        rfl

theorem pySorted_str : ∀ l : List String,
    pySorted (l.map .str) = .ok ((sortStrs l).map .str)
  | [] => rfl
  | x :: xs => by
      show pySorted (.str x :: xs.map .str) = _
      rw [pySorted, pySorted_str xs]
      simp only [exbind_ok]
      rw [sortStrs]
      exact pyInsertSorted_str (sortStrs xs) x

theorem insertStrPure_perm (x : String) : ∀ l : List String, List.Perm (insertStrPure x l) (x :: l)
  | [] => List.Perm.refl [x]
  | y :: ys => by
      rw [insertStrPure]
      by_cases hc : strLtB x y = true
      · rw [if_pos hc]
      · rw [if_neg hc]
        exact List.Perm.trans (List.Perm.cons y (insertStrPure_perm x ys))
          (List.Perm.swap x y ys)

theorem sortStrs_perm : ∀ l : List String, List.Perm (sortStrs l) l
  | [] => List.Perm.refl []
  | x :: xs => by
      rw [sortStrs]
      exact List.Perm.trans (insertStrPure_perm x (sortStrs xs))
        (List.Perm.cons x (sortStrs_perm xs))

theorem insertStrPure_sorted (x : String) : ∀ l : List String,
    l.Pairwise (fun a b => strLeB a b = true) →
    (insertStrPure x l).Pairwise (fun a b => strLeB a b = true)
  | [], _ => by simp [insertStrPure]
  | y :: ys, h => by
      rw [List.pairwise_cons] at h
      obtain ⟨hy, hys⟩ := h
      rw [insertStrPure]
      by_cases hc : strLtB x y = true
      · rw [if_pos hc]
        rw [List.pairwise_cons]
        constructor
        · intro z hz
          rcases List.mem_cons.mp hz with rfl | hz2
          · exact strLeB_of_lt x z hc
          · exact strLeB_trans x y z (strLeB_of_lt x y hc) (hy z hz2)
        · rw [List.pairwise_cons]
          exact ⟨hy, hys⟩
      · rw [if_neg hc]
        rw [List.pairwise_cons]
        constructor
        · intro z hz
          have hz2 := (insertStrPure_perm x ys).mem_iff.mp hz
          rcases List.mem_cons.mp hz2 with rfl | hz3
          · exact strLeB_of_not_lt z y (by simpa using hc)
          · exact hy z hz3
        · exact insertStrPure_sorted x ys hys

theorem sortStrs_sorted : ∀ l : List String,
    (sortStrs l).Pairwise (fun a b => strLeB a b = true)
  | [] => List.Pairwise.nil
  | x :: xs => by
      rw [sortStrs]
      exact insertStrPure_sorted x (sortStrs xs) (sortStrs_sorted xs)

theorem dateRowsSegment_eq (ms : List JValue) (dss : List String)
    (hobj : allObjB ms = true) (hdates : datesPure ms = dss.map .str) :
    dateRowsSegment (.arr ms) = .ok (if dss.isEmpty then [] else
      ["| **First Message** | " ++ formatTimestampStr (strMinL dss) ++ " |",
       "| **Last Message** | " ++ formatTimestampStr (strMaxL dss) ++ " |"]) := by
  have hcd : collectDates ms = .ok (dss.map .str) := by
    rw [collectDates_eq ms hobj, hdates]
  cases ms with
  | nil =>
    have hd0 : dss = [] := by
      cases dss with
      | nil => rfl
      | cons d ds => simp [datesPure] at hdates
    rw [hd0]
    rfl
  | cons m0 mrest =>
    unfold dateRowsSegment
    rw [if_pos (by rfl)]
    rw [show pyIter (.arr (m0 :: mrest)) = .ok (m0 :: mrest) from rfl]
    simp only [exbind_ok]
    rw [hcd]
    simp only [exbind_ok]
    cases dss with
    | nil => rfl
    | cons d ds =>
      rw [show (List.map JValue.str (d :: ds)).isEmpty = false from rfl]
      simp only [Bool.false_eq_true, if_false]
      rw [show pyMin (List.map JValue.str (d :: ds)) = pyMinGo (.str d) (ds.map .str) from rfl]
      rw [pyMinGo_str]
      simp only [exbind_ok]
      rw [show pyMax (List.map JValue.str (d :: ds)) = pyMaxGo (.str d) (ds.map .str) from rfl]
      rw [pyMaxGo_str]
      simp only [exbind_ok]
      rfl

theorem participantsSection_eq (parts sortedParts : List JValue)
    (hsorted : pySorted parts = .ok sortedParts) :
    participantsSection parts = .ok (if parts.isEmpty then [] else
      ["### Participants", ""] ++ sortedParts.map (fun p => "- " ++ pyStr p) ++ [""]) := by
  unfold participantsSection
  by_cases hp : parts.isEmpty = true
  · rw [if_pos hp, if_pos hp]
    rfl
  · rw [if_neg hp, if_neg hp]
    rw [hsorted]
    simp only [exbind_ok]
    rfl

/-- Full reduction of `generate_chat_header` under typing hypotheses:
string chat type, all-mapping messages, string date values, successful
participant collection and sort. -/
theorem generateChatHeaderLines_eq (chat : List (String × JValue)) (ms : List JValue)
    (ty : String) (dss : List String) (parts sortedParts : List JValue)
    (hm : (objGet chat "messages").getD (.arr []) = .arr ms)
    (hobj : allObjB ms = true)
    (hty : (objGet chat "type").getD (.str "unknown") = .str ty)
    (hdates : datesPure ms = dss.map .str)
    (hparts : collectParticipants ms = .ok parts)
    (hsorted : pySorted parts = .ok sortedParts) :
    generateChatHeaderLines chat = .ok (
      ["# " ++ pyStr ((objGet chat "name").getD (.str "Telegram Chat")), "", "## Chat Details",
       "", "| Property | Value |", "|----------|-------|",
       "| **Name** | " ++ pyStr ((objGet chat "name").getD (.str "Telegram Chat")) ++ " |",
       "| **Type** | " ++ pyTitleUnderscore ty ++ " |",
       "| **ID** | " ++ pyStr ((objGet chat "id").getD (.str "")) ++ " |",
       "| **Total Messages** | " ++ toString ms.length ++ " |"]
      ++ (if dss.isEmpty then [] else
           ["| **First Message** | " ++ formatTimestampStr (strMinL dss) ++ " |",
            "| **Last Message** | " ++ formatTimestampStr (strMaxL dss) ++ " |"])
      ++ (if parts.isEmpty then [] else
           ["| **Participants** | " ++ toString parts.length ++ " |"])
      ++ [""]
      ++ (if parts.isEmpty then [] else
           ["### Participants", ""] ++ sortedParts.map (fun p => "- " ++ pyStr p) ++ [""])
      ++ ["---", "", "## Messages", ""]) := by
  unfold generateChatHeaderLines
  rw [hty, hm]
  simp only []
  rw [show pyLen (JValue.arr ms) = .ok ms.length from rfl]
  simp only [exbind_ok]
  rw [dateRowsSegment_eq ms dss hobj hdates]
  simp only [exbind_ok]
  rw [show pyIter (JValue.arr ms) = .ok ms from rfl]
  simp only [exbind_ok]
  rw [hparts]
  simp only [exbind_ok]
  rw [participantsSection_eq parts sortedParts hsorted]
  simp only [exbind_ok]

/-- C5 (amended): the header's first/last-message rows are present
exactly when at least one message carries a **truthy** date value
(`datesPure` collects exactly those); when present, their values are
the Timestamp Formatter applied to the lexicographic minimum and
maximum of the raw date strings — lexicographic, not chronological:
`strMinL`/`strMaxL` are least/greatest under the code-point order
`strLeB`. -/
theorem c5_date_rows (chat : List (String × JValue)) (ms : List JValue)
    (ty : String) (dss : List String) (parts sortedParts : List JValue)
    (hm : (objGet chat "messages").getD (.arr []) = .arr ms)
    (hobj : allObjB ms = true)
    (hty : (objGet chat "type").getD (.str "unknown") = .str ty)
    (hdates : datesPure ms = dss.map .str)
    (hparts : collectParticipants ms = .ok parts)
    (hsorted : pySorted parts = .ok sortedParts) :
    (∃ tail, generateChatHeaderLines chat = .ok (
      ["# " ++ pyStr ((objGet chat "name").getD (.str "Telegram Chat")), "", "## Chat Details",
       "", "| Property | Value |", "|----------|-------|",
       "| **Name** | " ++ pyStr ((objGet chat "name").getD (.str "Telegram Chat")) ++ " |",
       "| **Type** | " ++ pyTitleUnderscore ty ++ " |",
       "| **ID** | " ++ pyStr ((objGet chat "id").getD (.str "")) ++ " |",
       "| **Total Messages** | " ++ toString ms.length ++ " |"]
      ++ (if dss.isEmpty then [] else
           ["| **First Message** | " ++ formatTimestampStr (strMinL dss) ++ " |",
            "| **Last Message** | " ++ formatTimestampStr (strMaxL dss) ++ " |"])
      ++ tail))
    ∧ (dss ≠ [] →
        (strMinL dss ∈ dss ∧ ∀ d ∈ dss, strLeB (strMinL dss) d = true)
        ∧ (strMaxL dss ∈ dss ∧ ∀ d ∈ dss, strLeB d (strMaxL dss) = true)) := by
  constructor
  · refine ⟨(if parts.isEmpty then [] else
        ["| **Participants** | " ++ toString parts.length ++ " |"])
      ++ [""]
      ++ (if parts.isEmpty then [] else
           ["### Participants", ""] ++ sortedParts.map (fun p => "- " ++ pyStr p) ++ [""])
      ++ ["---", "", "## Messages", ""], ?_⟩
    rw [generateChatHeaderLines_eq chat ms ty dss parts sortedParts hm hobj hty hdates
      hparts hsorted]
    simp [List.append_assoc]
  · intro hne
    cases dss with
    | nil => exact absurd rfl hne
    | cons d ds =>
      refine ⟨⟨?_, ?_⟩, ?_, ?_⟩
      · show strMinGo d ds ∈ d :: ds
        rcases strMinGo_mem ds d with h | h
        · rw [h]
          exact List.mem_cons_self d ds
        · exact List.mem_cons_of_mem d h
      · intro z hz
        obtain ⟨h1, h2⟩ := strMinGo_le ds d
        rcases List.mem_cons.mp hz with rfl | hz2
        · exact h1
        · exact h2 z hz2
      · show strMaxGo d ds ∈ d :: ds
        rcases strMaxGo_mem ds d with h | h
        · rw [h]
          exact List.mem_cons_self d ds
        · exact List.mem_cons_of_mem d h
      · intro z hz
        obtain ⟨h1, h2⟩ := strMaxGo_ge ds d
        rcases List.mem_cons.mp hz with rfl | hz2
        · exact h1
        · exact h2 z hz2

/-- C5 counterexample: a message carrying a `date` key whose value is
the empty string — the claim says the first/last rows must be present,
but the code filters dates by truthiness and emits none. -/
theorem c5_counterexample :
    (objGet [("date", JValue.str "")] "date").isSome = true
    ∧ generateChatHeaderLines [("messages", JValue.arr [JValue.obj [("date", JValue.str "")]])]
      = .ok ["# Telegram Chat", "", "## Chat Details", "", "| Property | Value |",
          "|----------|-------|", "| **Name** | Telegram Chat |", "| **Type** | Unknown |",
          "| **ID** |  |", "| **Total Messages** | 1 |", "", "---", "", "## Messages", ""]
    ∧ (["# Telegram Chat", "", "## Chat Details", "", "| Property | Value |",
        "|----------|-------|", "| **Name** | Telegram Chat |", "| **Type** | Unknown |",
        "| **ID** |  |", "| **Total Messages** | 1 |", "", "---", "", "## Messages", ""].all
          fun l => !(strStartsWith l "| **First Message**")) = true :=
  ⟨rfl, rfl, rfl⟩

/-- C5 witness: both date rows appear, valued at the lexicographic
extremes of the two raw date strings. -/
theorem c5_date_rows_witness :
    datesPure c5ms = (["2024-09-01", "2024-01-05"] : List String).map JValue.str
    ∧ ((∃ tail, generateChatHeaderLines c5chat = .ok (
        ["# " ++ pyStr ((objGet c5chat "name").getD (.str "Telegram Chat")), "",
         "## Chat Details", "", "| Property | Value |", "|----------|-------|",
         "| **Name** | " ++ pyStr ((objGet c5chat "name").getD (.str "Telegram Chat")) ++ " |",
         "| **Type** | " ++ pyTitleUnderscore "unknown" ++ " |",
         "| **ID** | " ++ pyStr ((objGet c5chat "id").getD (.str "")) ++ " |",
         "| **Total Messages** | " ++ toString c5ms.length ++ " |"]
        ++ (if (["2024-09-01", "2024-01-05"] : List String).isEmpty then [] else
             ["| **First Message** | "
                ++ formatTimestampStr (strMinL ["2024-09-01", "2024-01-05"]) ++ " |",
              "| **Last Message** | "
                ++ formatTimestampStr (strMaxL ["2024-09-01", "2024-01-05"]) ++ " |"])
        ++ tail))
      ∧ ((["2024-09-01", "2024-01-05"] : List String) ≠ [] →
          (strMinL ["2024-09-01", "2024-01-05"] ∈ (["2024-09-01", "2024-01-05"] : List String)
            ∧ ∀ d ∈ (["2024-09-01", "2024-01-05"] : List String),
                strLeB (strMinL ["2024-09-01", "2024-01-05"]) d = true)
          ∧ (strMaxL ["2024-09-01", "2024-01-05"] ∈ (["2024-09-01", "2024-01-05"] : List String)
            ∧ ∀ d ∈ (["2024-09-01", "2024-01-05"] : List String),
                strLeB d (strMaxL ["2024-09-01", "2024-01-05"]) = true))) :=
  ⟨rfl, c5_date_rows c5chat c5ms "unknown" ["2024-09-01", "2024-01-05"]
    [.str "A"] [.str "A"] rfl rfl rfl rfl rfl rfl⟩

/-- C6 (amended): with string-valued senders, the participant count row
equals the number of distinct truthy sender-or-actor values (`from`
falling back to `actor` when `from` is absent or falsy), and the bullet
list prints exactly those distinct values, lexicographically sorted,
with no duplicates; the rows are present because at least one such
value exists. -/
theorem c6_participants (chat : List (String × JValue)) (ms : List JValue)
    (ty : String) (names : List String)
    (hm : (objGet chat "messages").getD (.arr []) = .arr ms)
    (hobj : allObjB ms = true)
    (hty : (objGet chat "type").getD (.str "unknown") = .str ty)
    (hdatestr : ∃ dss : List String, datesPure ms = List.map JValue.str dss)
    (hsend : sendersPure ms = names.map .str)
    (hne : names ≠ []) :
    (∃ pre, generateChatHeaderLines chat = .ok (pre
        ++ ["| **Participants** | " ++ toString (dedupStr names).length ++ " |"]
        ++ [""]
        ++ (["### Participants", ""]
            ++ (sortStrs (dedupStr names)).map (fun p => "- " ++ p) ++ [""])
        ++ ["---", "", "## Messages", ""]))
    ∧ (sortStrs (dedupStr names)).Pairwise (fun a b => strLeB a b = true)
    ∧ List.Perm (sortStrs (dedupStr names)) (dedupStr names)
    ∧ (dedupStr names).Nodup
    ∧ (∀ x, x ∈ dedupStr names ↔ JValue.str x ∈ sendersPure ms) := by
  obtain ⟨dss, hdates⟩ := hdatestr
  have hhash : ∀ v ∈ sendersPure ms, hashable v = true := by
    rw [hsend]
    intro v hv
    obtain ⟨a, _, rfl⟩ := List.mem_map.mp hv
    rfl
  have hparts : collectParticipants ms = .ok ((dedupStr names).map .str) :=
    calc collectParticipants ms
        = .ok (dedupJFrom [] (sendersPure ms)) := collectParticipantsFrom_eq ms hobj hhash []
      _ = .ok (dedupJFrom (List.map JValue.str []) (List.map JValue.str names)) := by
          rw [hsend]; rfl
      _ = .ok ((dedupStrFrom [] names).map .str) := by rw [dedupJFrom_str]
      _ = .ok ((dedupStr names).map .str) := rfl
  have hsorted := pySorted_str (dedupStr names)
  have hex : dedupStr names ≠ [] := by
    obtain ⟨a, ha⟩ := List.exists_mem_of_ne_nil names hne
    intro h0
    have ha2 : a ∈ dedupStr names := (dedupStr_mem names a).mpr ha
    rw [h0] at ha2
    simp at ha2
  have hpe : ((dedupStr names).map JValue.str).isEmpty = false := by
    cases hd : dedupStr names with
    | nil => exact absurd hd hex
    | cons b bs => rfl
  have hcomp : ((fun p => "- " ++ pyStr p) ∘ JValue.str) = (fun s => "- " ++ s) := by
    funext s
    rfl
  constructor
  · refine ⟨["# " ++ pyStr ((objGet chat "name").getD (.str "Telegram Chat")), "",
      "## Chat Details", "", "| Property | Value |", "|----------|-------|",
      "| **Name** | " ++ pyStr ((objGet chat "name").getD (.str "Telegram Chat")) ++ " |",
      "| **Type** | " ++ pyTitleUnderscore ty ++ " |",
      "| **ID** | " ++ pyStr ((objGet chat "id").getD (.str "")) ++ " |",
      "| **Total Messages** | " ++ toString ms.length ++ " |"]
      ++ (if dss.isEmpty then [] else
           ["| **First Message** | " ++ formatTimestampStr (strMinL dss) ++ " |",
            "| **Last Message** | " ++ formatTimestampStr (strMaxL dss) ++ " |"]), ?_⟩
    rw [generateChatHeaderLines_eq chat ms ty dss ((dedupStr names).map .str)
      ((sortStrs (dedupStr names)).map .str) hm hobj hty hdates hparts hsorted]
    rw [hpe]
    simp only [Bool.false_eq_true, if_false, List.length_map, List.map_map, hcomp]
  · refine ⟨sortStrs_sorted _, sortStrs_perm _, dedupStr_nodup names, ?_⟩
    intro x
    rw [dedupStr_mem, hsend]
    simp

/-- C6 counterexample: two messages with sender values `""` and `"A"`
have two distinct sender-or-actor values, but the header counts only
one participant (the falsy `""` is dropped by `or`/truthiness). -/
theorem c6_counterexample :
    (specSenderOrActorValues [JValue.obj [("from", JValue.str "")],
        JValue.obj [("from", JValue.str "A")]]).length = 2
    ∧ (generateChatHeaderLines [("messages", JValue.arr [JValue.obj [("from", JValue.str "")],
          JValue.obj [("from", JValue.str "A")]])]).map
        (fun ls => (ls.contains "| **Participants** | 1 |",
                    ls.contains "| **Participants** | 2 |"))
      = .ok (true, false) :=
  ⟨rfl, rfl⟩

/-- C6 witness: count 2, bullets `A`, `B` sorted without duplicates. -/
theorem c6_participants_witness :
    sendersPure c6ms = (["B", "A", "A"] : List String).map JValue.str
    ∧ ((∃ pre, generateChatHeaderLines c6chat = .ok (pre
        ++ ["| **Participants** | " ++ toString (dedupStr ["B", "A", "A"]).length ++ " |"]
        ++ [""]
        ++ (["### Participants", ""]
            ++ (sortStrs (dedupStr ["B", "A", "A"])).map (fun p => "- " ++ p) ++ [""])
        ++ ["---", "", "## Messages", ""]))
      ∧ (sortStrs (dedupStr ["B", "A", "A"])).Pairwise (fun a b => strLeB a b = true)
      ∧ List.Perm (sortStrs (dedupStr ["B", "A", "A"])) (dedupStr ["B", "A", "A"])
      ∧ (dedupStr ["B", "A", "A"]).Nodup
      ∧ (∀ x, x ∈ dedupStr ["B", "A", "A"] ↔ JValue.str x ∈ sendersPure c6ms)) :=
  ⟨rfl, c6_participants c6chat c6ms "unknown" ["B", "A", "A"] rfl rfl rfl ⟨[], rfl⟩ rfl
    (by intro h; simp at h)⟩
